import Mathlib

/-!
Verification development for the yywc chat-export analytics pipeline.

This file gives a shallow embedding, in Lean 4, of the core of the
repository: the export reader (`src/yywc/export_reader.py`) and the
analytics engine (`src/yywc/analyze.py`), together with theorems settling
the frozen claims about them.

Modelling conventions:
* Python strings are modelled as `List Char` (Unicode code points, which is
  also how Python compares strings).
* Python `datetime` objects are modelled by the instant they denote, an
  integer count of seconds since the Unix epoch (`PyDateTime`).  The
  calendar projections (`year`, `month`, `isoformat`, ...) are computed by
  the standard proleptic-Gregorian civil-calendar algorithms, standing in
  for the `datetime` standard library.  Fractional seconds are dropped;
  no claim depends on sub-second precision.
* `datetime.astimezone()` (conversion to the ambient local timezone) is
  environment dependent; following the spec's reproducibility note the
  ambient timezone is modelled as UTC (offset 0).
* Parsed JSON values are modelled by the inductive `Json`; Python `dict`s
  become ordered association lists (insertion order, first-key-wins
  lookup, as in CPython).
* Python regular-expression substitution (`re.sub`) is modelled by a small
  backtracking matcher (`Matcher`) that mirrors `re`'s leftmost-match /
  greedy-with-backtracking semantics for the three concrete patterns the
  code uses.
-/

namespace Yywc

/-- Str abbreviates the model of Python strings. -/
abbrev Str := List Char

/-- lit converts a Lean string literal to the Python-string model. -/
def lit (s : String) : Str := s.toList

/-! ### Character classes (ASCII, as used by the code's regexes) -/

/-- isDigitChar tests for an ASCII decimal digit. -/
def isDigitChar (c : Char) : Bool := 48 ≤ c.toNat && c.toNat ≤ 57

/-- isUpperAlpha tests for an ASCII upper-case letter. -/
def isUpperAlpha (c : Char) : Bool := 65 ≤ c.toNat && c.toNat ≤ 90

/-- isLowerAlpha tests for an ASCII lower-case letter. -/
def isLowerAlpha (c : Char) : Bool := 97 ≤ c.toNat && c.toNat ≤ 122

/-- isAlphaChar tests for an ASCII letter. -/
def isAlphaChar (c : Char) : Bool := isUpperAlpha c || isLowerAlpha c

/-- isAlnumChar tests for an ASCII letter or digit. -/
def isAlnumChar (c : Char) : Bool := isAlphaChar c || isDigitChar c

/-- isWordChar is the regex word-character class used by the boundary
assertion of Python regexes (letters, digits, underscore). -/
def isWordChar (c : Char) : Bool := isAlnumChar c || c = '_'

/-- isSpaceChar covers the whitespace characters recognised by Python's
`str.strip`, `str.split` and the regex class set used here. -/
def isSpaceChar (c : Char) : Bool :=
  c = ' ' || c = '\t' || c = '\n' || c = '\r' || c = '\x0b' || c = '\x0c'

/-- toLowerChar models `str.lower` character-wise (ASCII case fold; the
texts exercised by the claims are ASCII). -/
def toLowerChar (c : Char) : Char :=
  if isUpperAlpha c then Char.ofNat (c.toNat + 32) else c

/-- pyLower models Python `str.lower`. -/
def pyLower (s : Str) : Str := s.map toLowerChar

/-- pyStripList models Python `str.strip()` (drop whitespace at both
ends). -/
def pyStripList (s : Str) : Str :=
  ((s.dropWhile isSpaceChar).reverse.dropWhile isSpaceChar).reverse

/-- digitToNat gives the value of an ASCII digit. -/
def digitToNat (c : Char) : Nat := c.toNat - 48

/-- natToStrAux builds the decimal digits of a natural number
(most-significant first) by structural recursion on a fuel bound. -/
def natToStrAux : Nat → Nat → Str
  | 0, _ => []
  | f + 1, n =>
    if n < 10 then [Char.ofNat (48 + n)]
    else natToStrAux f (n / 10) ++ [Char.ofNat (48 + n % 10)]

/-- natToStr models Python `str` on a non-negative integer. -/
def natToStr (n : Nat) : Str := natToStrAux (n + 1) n

/-- intToStr models Python `str` on an integer. -/
def intToStr (n : Int) : Str :=
  if n < 0 then '-' :: natToStr n.natAbs else natToStr n.natAbs

/-- padNat left-pads the decimal expansion of `n` with zeros to width
`w`, as the format specifiers `{:04d}` / `{:02d}` do for non-negative
arguments. -/
def padNat (w : Nat) (n : Nat) : Str :=
  let ds := natToStr n
  List.replicate (w - ds.length) '0' ++ ds

/-! ### The civil (proleptic Gregorian) calendar

These two conversions stand in for the date arithmetic of Python's
`datetime` standard library (they are the standard days-from-civil /
civil-from-days algorithms). -/

/-- daysFromCivil converts a calendar date to a count of days since
1970-01-01. -/
def daysFromCivil (y : Int) (m d : Nat) : Int :=
  let y2 : Int := if m ≤ 2 then y - 1 else y
  let era : Int := y2.fdiv 400
  let yoe : Nat := (y2 - era * 400).toNat
  let mp : Nat := if 2 < m then m - 3 else m + 9
  let doy : Nat := (153 * mp + 2) / 5 + d - 1
  let doe : Nat := yoe * 365 + yoe / 4 - yoe / 100 + doy
  era * 146097 + (doe : Int) - 719468

/-- civilFromDays converts a count of days since 1970-01-01 to a calendar
date (year, month, day). -/
def civilFromDays (z0 : Int) : Int × Nat × Nat :=
  let z : Int := z0 + 719468
  let era : Int := z.fdiv 146097
  let doe : Nat := (z - era * 146097).toNat
  let yoe : Nat := (doe - doe / 1460 + doe / 36524 - doe / 146096) / 365
  let y : Int := (yoe : Int) + era * 400
  let doy : Nat := doe - (365 * yoe + yoe / 4 - yoe / 100)
  let mp : Nat := (5 * doy + 2) / 153
  let d : Nat := doy - (153 * mp + 2) / 5 + 1
  let m : Nat := if mp < 10 then mp + 3 else mp - 9
  (if m ≤ 2 then y + 1 else y, m, d)

/-- PyDateTime models a timezone-aware `datetime`: the UTC instant it
denotes, in whole seconds since the Unix epoch. -/
structure PyDateTime where
  epoch : Int
  deriving DecidableEq, Repr

namespace PyDateTime

/-- localOffsetSeconds models the ambient local timezone used by
`datetime.astimezone()`; the environment is modelled as UTC. -/
def localOffsetSeconds : Int := 0

/-- epochDay is the civil day number (days since 1970-01-01, UTC). -/
def epochDay (dt : PyDateTime) : Int := dt.epoch.fdiv 86400

/-- year models `dt.year` (UTC). -/
def year (dt : PyDateTime) : Int := (civilFromDays dt.epochDay).1

/-- month models `dt.month` (UTC). -/
def month (dt : PyDateTime) : Nat := (civilFromDays dt.epochDay).2.1

/-- day models `dt.day` (UTC). -/
def day (dt : PyDateTime) : Nat := (civilFromDays dt.epochDay).2.2

/-- secondOfDay is the number of seconds elapsed in the UTC day. -/
def secondOfDay (dt : PyDateTime) : Nat := (dt.epoch.emod 86400).toNat

/-- weekdayIdx models `dt.weekday()`: Monday is 0.  Day 0 of the epoch
(1970-01-01) was a Thursday, index 3. -/
def weekdayIdx (dt : PyDateTime) : Nat := ((dt.epochDay + 3).emod 7).toNat

/-- localEpoch shifts the instant by the ambient local offset. -/
def localEpoch (dt : PyDateTime) : Int := dt.epoch + localOffsetSeconds

/-- localDateOrdinal is the local calendar date, as a day number (the
model of the `date` object produced by `local_dt.date()`). -/
def localDateOrdinal (dt : PyDateTime) : Int := dt.localEpoch.fdiv 86400

/-- localHour models `local_dt.hour`. -/
def localHour (dt : PyDateTime) : Nat := ((dt.localEpoch.emod 86400) / 3600).toNat

/-- dateIsoOfOrdinal renders a day number as `YYYY-MM-DD` (the model of
`date.isoformat()`). -/
def dateIsoOfOrdinal (z : Int) : Str :=
  let c := civilFromDays z
  padNat 4 c.1.toNat ++ '-' :: padNat 2 c.2.1 ++ '-' :: padNat 2 c.2.2

/-- localDateIso models `local_dt.date().isoformat()`. -/
def localDateIso (dt : PyDateTime) : Str := dateIsoOfOrdinal dt.localDateOrdinal

/-- isoformat models `dt.isoformat()` for a UTC-aware datetime with whole
seconds: `YYYY-MM-DDTHH:MM:SS+00:00`. -/
def isoformat (dt : PyDateTime) : Str :=
  let s := dt.secondOfDay
  dateIsoOfOrdinal dt.epochDay ++ 'T' :: padNat 2 (s / 3600) ++
    ':' :: padNat 2 (s % 3600 / 60) ++ ':' :: padNat 2 (s % 60) ++ lit "+00:00"

end PyDateTime

/-! ### Parsed JSON values -/

/-- Json models a parsed Python JSON value (`json.loads` output).  Objects
are ordered association lists, as CPython dicts are; numbers are modelled
as integers (the timestamps the claims exercise are whole seconds). -/
inductive Json where
  | null : Json
  | bool (b : Bool) : Json
  | num (n : Int) : Json
  | str (s : Str) : Json
  | arr (items : List Json) : Json
  | obj (fields : List (Str × Json)) : Json

/-- JObj models a Python `dict` holding JSON data. -/
abbrev JObj := List (Str × Json)

/-- jlookup is dict lookup, first binding wins. -/
def jlookup (o : JObj) (k : Str) : Option Json :=
  match o with
  | [] => none
  | (k1, v) :: rest => if k1 = k then some v else jlookup rest k

/-- hasKey models Python `k in d`. -/
def hasKey (o : JObj) (k : Str) : Bool := (jlookup o k).isSome

/-- jget models `d.get(k)`: an absent key yields `None`, which coincides
with JSON `null`. -/
def jget (o : JObj) (k : Str) : Json := (jlookup o k).getD Json.null

/-- jgetD models `d.get(k, default)`. -/
def jgetD (o : JObj) (k : Str) (dflt : Json) : Json := (jlookup o k).getD dflt

/-- truthy models Python truthiness of a JSON value. -/
def truthy : Json → Bool
  | Json.null => false
  | Json.bool b => b
  | Json.num n => n ≠ 0
  | Json.str s => s ≠ []
  | Json.arr items => !items.isEmpty
  | Json.obj fields => !fields.isEmpty

/-- pyStr models Python `str(x)` on a JSON value.  For lists and dicts
Python would print the container repr; no claim exercises that case, so a
fixed placeholder stands in for it. -/
def pyStr : Json → Str
  | Json.null => lit "None"
  | Json.bool b => if b then lit "True" else lit "False"
  | Json.num n => intToStr n
  | Json.str s => s
  | Json.arr _ => lit "<list>"
  | Json.obj _ => lit "<dict>"

/-! ### Timestamp parsing (`_dt_from_ts`, `_dt_from_iso`) -/

/-- parseDigitsAux consumes exactly `w` ASCII digits. -/
def parseDigitsAux : Nat → Nat → Str → Option (Nat × Str)
  | 0, acc, rest => some (acc, rest)
  | w + 1, acc, c :: rest =>
    if isDigitChar c then parseDigitsAux w (acc * 10 + digitToNat c) rest else none
  | _ + 1, _, [] => none

/-- parseDigits consumes exactly `w` ASCII digits starting from 0. -/
def parseDigits (w : Nat) (s : Str) : Option (Nat × Str) := parseDigitsAux w 0 s

/-- expectChar consumes one expected character. -/
def expectChar (c : Char) : Str → Option Str
  | c1 :: rest => if c1 = c then some rest else none
  | [] => none

/-- parseIsoTime parses `HH:MM:SS` with an optional `.ffffff` fraction
(which is dropped: instants are modelled in whole seconds), returning the
second-of-day. -/
def parseIsoTime (s : Str) : Option (Nat × Str) := do
  let (h, s) ← parseDigits 2 s
  let s ← expectChar ':' s
  let (mi, s) ← parseDigits 2 s
  let s ← expectChar ':' s
  let (sec, s) ← parseDigits 2 s
  if h ≤ 23 ∧ mi ≤ 59 ∧ sec ≤ 59 then
    match s with
    | '.' :: rest =>
      let frac := rest.takeWhile isDigitChar
      if frac.length = 0 ∨ 6 < frac.length then none
      else some (h * 3600 + mi * 60 + sec, rest.drop frac.length)
    | _ => some (h * 3600 + mi * 60 + sec, s)
  else none

/-- parseIsoOffset parses a trailing `+HH:MM` / `-HH:MM` UTC offset, in
seconds.  An absent offset is a naive datetime; `astimezone` would then
apply the ambient timezone, modelled as UTC (offset 0). -/
def parseIsoOffset (s : Str) : Option Int :=
  match s with
  | [] => some 0
  | sign :: rest =>
    if sign = '+' ∨ sign = '-' then do
      let (oh, rest) ← parseDigits 2 rest
      let rest ← expectChar ':' rest
      let (om, rest) ← parseDigits 2 rest
      if rest = [] ∧ oh ≤ 23 ∧ om ≤ 59 then
        let mag : Int := oh * 3600 + om * 60
        some (if sign = '-' then -mag else mag)
      else none
    else none

/-- parseIsoDatetime models `datetime.fromisoformat` (on the shapes the
exports use: `YYYY-MM-DD`, optionally followed by `THH:MM:SS[.ffffff]`
and a `+HH:MM` offset), giving the denoted UTC instant.  The stdlib also
validates day-of-month against month length; the claims do not exercise
that corner. -/
def parseIsoDatetime (s : Str) : Option PyDateTime := do
  let (y, s) ← parseDigits 4 s
  let s ← expectChar '-' s
  let (mo, s) ← parseDigits 2 s
  let s ← expectChar '-' s
  let (d, s) ← parseDigits 2 s
  if 1 ≤ mo ∧ mo ≤ 12 ∧ 1 ≤ d ∧ d ≤ 31 then
    let dayPart : Int := daysFromCivil (y : Int) mo d * 86400
    match s with
    | [] => some ⟨dayPart⟩
    | 'T' :: rest => do
      let (sod, rest) ← parseIsoTime rest
      let off ← parseIsoOffset rest
      some ⟨dayPart + (sod : Int) - off⟩
    | _ => none
  else none

/-- pyReplaceFuel is the scanning loop of Python `str.replace` (all
non-overlapping occurrences, scanned left to right); each step consumes
at least one character, so a fuel of the input length suffices. -/
def pyReplaceFuel (pat repl : Str) : Nat → Str → Str
  | 0, s => s
  | _ + 1, [] => []
  | fuel + 1, c :: rest =>
    if pat ≠ [] ∧ pat.isPrefixOf (c :: rest) then
      repl ++ pyReplaceFuel pat repl fuel ((c :: rest).drop pat.length)
    else
      c :: pyReplaceFuel pat repl fuel rest

/-- pyReplace models Python `str.replace`. -/
def pyReplace (pat repl s : Str) : Str := pyReplaceFuel pat repl s.length s

/-- dtFromIso models `_dt_from_ts`'s sibling `_dt_from_iso`: accept only
strings, replace `Z` by `+00:00`, then parse; failures give `None`. -/
def dtFromIso : Json → Option PyDateTime
  | Json.str s => parseIsoDatetime (pyReplace (lit "Z") (lit "+00:00") s)
  | _ => none

/-- PyFloat models the result of Python `float(...)`: a finite value
(floored to whole seconds, matching the whole-second instant model), a
signed infinity, or NaN. -/
inductive PyFloat where
  | finite (n : Int) : PyFloat
  | infinite (neg : Bool) : PyFloat
  | nan : PyFloat
  deriving DecidableEq, Repr

/-- validDigitGroup checks a `float`-literal digit group: non-empty
digits with single underscores allowed between digits. -/
def validDigitGroup : Str → Bool
  | [] => false
  | [c] => isDigitChar c
  | c :: u :: rest =>
    if isDigitChar c then
      if u.toNat = 95 then validDigitGroup rest else validDigitGroup (u :: rest)
    else false

/-- digitsToInt reads a digit string (underscores removed) as an
integer. -/
def digitsToInt (ds : Str) : Int :=
  (ds.filter (fun c => c.toNat ≠ 95)).foldl (fun a c => a * 10 + (digitToNat c : Int)) 0

/-- parseFloatString models Python `float(s)` on a string: strip, an
optional sign, then `inf`/`infinity`/`nan` (case-insensitive) or a
decimal literal with optional fraction and exponent (digit groups may
contain single underscores).  The value is floored to an integer;
literals so large that an IEEE double would overflow to infinity are
kept as (huge) finite integers, which take the same error path through
`datetime.fromtimestamp` as an infinity would. -/
def parseFloatString (s : Str) : Option PyFloat :=
  let s := pyStripList s
  let (neg, body) : Bool × Str :=
    match s with
    | '-' :: rest => (true, rest)
    | '+' :: rest => (false, rest)
    | _ => (false, s)
  let lower := pyLower body
  if lower = lit "inf" ∨ lower = lit "infinity" then some (PyFloat.infinite neg)
  else if lower = lit "nan" then some PyFloat.nan
  else
    let mantissa := body.takeWhile (fun c => c.toNat ≠ 101 && c.toNat ≠ 69)
    let expPart := body.dropWhile (fun c => c.toNat ≠ 101 && c.toNat ≠ 69)
    let ip := mantissa.takeWhile (fun c => c ≠ '.')
    let dotFp := mantissa.dropWhile (fun c => c ≠ '.')
    let fpOk : Bool :=
      match dotFp with
      | [] => true
      | _ :: fp => fp.isEmpty || validDigitGroup fp
    let fp : Str :=
      match dotFp with
      | [] => []
      | _ :: fp => fp
    let mantOk : Bool :=
      fpOk && (ip.isEmpty || validDigitGroup ip) &&
        (!ip.isEmpty || !(match dotFp with | [] => true | _ :: fp2 => fp2.isEmpty))
    let expVal : Option Int :=
      match expPart with
      | [] => some 0
      | _ :: es =>
        let (eneg, eds) : Bool × Str :=
          match es with
          | '-' :: rest => (true, rest)
          | '+' :: rest => (false, rest)
          | _ => (false, es)
        if validDigitGroup eds then
          some (if eneg then -(digitsToInt eds) else digitsToInt eds)
        else none
    match expVal with
    | none => none
    | some e =>
      if mantOk then
        let fpd := fp.filter (fun c => c.toNat ≠ 95)
        let m := digitsToInt (ip ++ fp)
        let m := if neg then -m else m
        let shift := e - (fpd.length : Int)
        some (PyFloat.finite
          (if 0 ≤ shift then m * 10 ^ shift.toNat else m.fdiv (10 ^ (-shift).toNat)))
      else none

/-- minTimestamp is the epoch second of `datetime.min` (0001-01-01). -/
def minTimestamp : Int := daysFromCivil 1 1 1 * 86400

/-- maxTimestamp is the last whole epoch second of `datetime.max`
(9999-12-31T23:59:59). -/
def maxTimestamp : Int := daysFromCivil 9999 12 31 * 86400 + 86399

/-- fromTimestampChecked models `datetime.fromtimestamp(value,
tz=timezone.utc)`: outside the `datetime.min`..`datetime.max` range it
raises (`ValueError`/`OverflowError`) — and in `_dt_from_ts` this call
sits outside the `try`, so the exception escapes. -/
def fromTimestampChecked (n : Int) : Except Str (Option PyDateTime) :=
  if minTimestamp ≤ n ∧ n ≤ maxTimestamp then Except.ok (some ⟨n⟩)
  else Except.error (lit "timestamp out of range")

/-- dtFromTs models `_dt_from_ts`: `float(ts)` failures (`TypeError` /
`ValueError`) are caught and yield `None`, but the subsequent
`datetime.fromtimestamp` call is outside the `try`, so an out-of-range,
infinite or NaN value raises an uncaught exception, modelled as
`Except.error`. -/
def dtFromTs : Json → Except Str (Option PyDateTime)
  | Json.null => Except.ok none
  | Json.num n => fromTimestampChecked n
  | Json.bool b => fromTimestampChecked (if b then 1 else 0)
  | Json.str s =>
    match parseFloatString s with
    | none => Except.ok none
    | some (PyFloat.finite n) => fromTimestampChecked n
    | some (PyFloat.infinite _) => Except.error (lit "timestamp out of range")
    | some PyFloat.nan => Except.error (lit "Invalid value NaN")
  | Json.arr _ => Except.ok none
  | Json.obj _ => Except.ok none

/-! ### Canonical data model (`export_reader.py`) -/

/-- Message is the canonical message record. -/
structure Message where
  conversation_id : Str
  conversation_title : Str
  message_id : Str
  role : Str
  created_at : PyDateTime
  text : Str
  model : Option Str
  deriving DecidableEq, Repr

/-- Conversation is the canonical conversation record. -/
structure Conversation where
  conversation_id : Str
  title : Str
  created_at : Option PyDateTime
  updated_at : Option PyDateTime
  deriving DecidableEq, Repr

/-- Dataset is the canonical dataset: parsed conversations, the globally
sorted message sequence, and the source tag. -/
structure Dataset where
  conversations : List Conversation
  messages : List Message
  source : Str
  deriving DecidableEq, Repr

/-- sortKey is the sort key `(m.created_at, m.conversation_id,
m.message_id)` used by both normalizers; Python compares such tuples
lexicographically, datetimes by instant and strings by code point, which
is the lexicographic order of this `Lex` triple. -/
def sortKey (m : Message) : Lex (Int × Lex (String × String)) :=
  toLex (m.created_at.epoch, toLex (String.mk m.conversation_id, String.mk m.message_id))

/-- keyLe is the total order on messages induced by `sortKey`. -/
def keyLe (m1 m2 : Message) : Prop := sortKey m1 ≤ sortKey m2

instance : DecidableRel keyLe := fun m1 m2 => inferInstanceAs (Decidable (sortKey m1 ≤ sortKey m2))

instance : IsTotal Message keyLe := ⟨fun a b => le_total (sortKey a) (sortKey b)⟩

instance : IsTrans Message keyLe := ⟨fun _ _ _ h1 h2 => le_trans h1 h2⟩

/-- sortMessages models `messages.sort(key=lambda m: (m.created_at,
m.conversation_id, m.message_id))`: a stable sort by `sortKey`. -/
def sortMessages (l : List Message) : List Message := List.insertionSort keyLe l

/-! ### Export reader (`export_reader.py`) -/

/-- orEmptyStr models `str(x or "")`. -/
def orEmptyStr (v : Json) : Str := if truthy v then pyStr v else []

/-- orUntitled models `str(x or "Untitled")`. -/
def orUntitled (v : Json) : Str := if truthy v then pyStr v else lit "Untitled"

/-- detectExportSource models `_detect_export_source` (its input is the
already-filtered list of dict records produced by
`_load_conversations_json`). -/
def detectExportSource (conversations : List JObj) : Str :=
  match conversations with
  | [] => lit "unknown"
  | sample :: _ =>
    if hasKey sample (lit "chat_messages") && hasKey sample (lit "uuid") then lit "claude"
    else if hasKey sample (lit "mapping") && hasKey sample (lit "id") then lit "chatgpt"
    else lit "unknown"

/-- claudeSenderToRole models `_claude_sender_to_role` (a two-entry table
with pass-through default). -/
def claudeSenderToRole (sender : Str) : Str :=
  if sender = lit "human" then lit "user"
  else if sender = lit "assistant" then lit "assistant"
  else sender

/-- extractClaudeText models `_extract_claude_text`. -/
def extractClaudeText (msg : JObj) : Str :=
  match jget msg (lit "text") with
  | Json.str t =>
    if pyStripList t ≠ [] then pyStripList t else extractClaudeFallback msg
  | _ => extractClaudeFallback msg
where
  /-- extractClaudeFallback is the content-array fallback of
  `_extract_claude_text`. -/
  extractClaudeFallback (msg : JObj) : Str :=
    match jget msg (lit "content") with
    | Json.arr items =>
      List.intercalate (lit "\n")
        (items.filterMap (fun item =>
          match item with
          | Json.obj fs =>
            match jget fs (lit "text") with
            | Json.str t => if pyStripList t ≠ [] then some (pyStripList t) else none
            | _ => none
          | _ => none))
    | _ => []

/-- yearMismatch models the filter `year is not None and created.year !=
year`. -/
def yearMismatch (year : Option Int) (created : PyDateTime) : Bool :=
  match year with
  | some y => created.year ≠ y
  | none => false

/-- claudeMsgOne models one iteration of the message loop of
`_read_claude_export`: `.ok none` means the record is skipped
(skip-and-continue) and `.ok (some _)` is the canonical message
appended.  A list- or dict-valued `sender` is unhashable, so
`_claude_sender_to_role`'s `mapping.get(sender, sender)` raises an
uncaught `TypeError`, modelled as `.error`; a hashable non-string sender
passes through the table unchanged and never equals a role in the
requested string scope, so such a record is skipped. -/
def claudeMsgOne (convId title : Str) (year : Option Int) (roleScope : List Str)
    (msg : Json) : Except Str (Option Message) :=
  match msg with
  | Json.obj mfs =>
    match dtFromIso (jget mfs (lit "created_at")) with
    | none => Except.ok none
    | some created =>
      if yearMismatch year created then Except.ok none
      else
        match jgetD mfs (lit "sender") (Json.str []) with
        | Json.arr _ => Except.error (lit "unhashable type")
        | Json.obj _ => Except.error (lit "unhashable type")
        | Json.str s =>
          let role := claudeSenderToRole s
          if role ∉ roleScope then Except.ok none
          else
            let text := extractClaudeText mfs
            if text = [] then Except.ok none
            else
              Except.ok (some
                { conversation_id := convId
                  conversation_title := title
                  message_id := orEmptyStr (jget mfs (lit "uuid"))
                  role := role
                  created_at := created
                  text := text
                  model := none })
        | _ => Except.ok none
  | _ => Except.ok none

/-- collectMsgs runs a per-record extractor over a list, appending the
extracted messages in order; the first uncaught exception aborts
(Python's loop with `continue` for skips). -/
def collectMsgs {α : Type} (f : α → Except Str (Option Message)) :
    List α → Except Str (List Message)
  | [] => Except.ok []
  | a :: as =>
    match f a with
    | Except.error e => Except.error e
    | Except.ok none => collectMsgs f as
    | Except.ok (some msg) =>
      match collectMsgs f as with
      | Except.error e => Except.error e
      | Except.ok ms => Except.ok (msg :: ms)

/-- readClaudeConvs is the conversation loop of `_read_claude_export`:
each conversation record is appended, then its `chat_messages` (when a
list) are extracted; a per-message exception propagates. -/
def readClaudeConvs (year : Option Int) (roleScope : List Str) :
    List JObj → Except Str (List Conversation × List Message)
  | [] => Except.ok ([], [])
  | conv :: rest =>
    let convId := orEmptyStr (jget conv (lit "uuid"))
    let title := orUntitled (jget conv (lit "name"))
    let c : Conversation :=
      { conversation_id := convId
        title := title
        created_at := dtFromIso (jget conv (lit "created_at"))
        updated_at := dtFromIso (jget conv (lit "updated_at")) }
    let msgsHere : Except Str (List Message) :=
      match jget conv (lit "chat_messages") with
      | Json.arr chatMessages => collectMsgs (claudeMsgOne convId title year roleScope) chatMessages
      | _ => Except.ok []
    match msgsHere with
    | Except.error e => Except.error e
    | Except.ok ms =>
      match readClaudeConvs year roleScope rest with
      | Except.error e => Except.error e
      | Except.ok (cs, msRest) => Except.ok (c :: cs, ms ++ msRest)

/-- readClaudeExport models `_read_claude_export` (the final sort
included). -/
def readClaudeExport (conversationsRaw : List JObj) (year : Option Int)
    (roleScope : List Str) : Except Str Dataset :=
  match readClaudeConvs year roleScope conversationsRaw with
  | Except.error e => Except.error e
  | Except.ok (cs, ms) =>
    Except.ok { conversations := cs, messages := sortMessages ms, source := lit "claude" }

/-- getRole models `_get_role`. -/
def getRole (msg : JObj) : Str :=
  match jget msg (lit "author") with
  | Json.obj afs =>
    match jget afs (lit "role") with
    | Json.str r => r
    | _ => lit "unknown"
  | _ => lit "unknown"

/-- getModel models `_get_model`: the first of three metadata keys whose
value is a non-blank string, stripped. -/
def getModel (msg : JObj) : Option Str :=
  match jget msg (lit "metadata") with
  | Json.obj mfs =>
    let pick (k : Str) : Option Str :=
      match jget mfs k with
      | Json.str v => if pyStripList v ≠ [] then some (pyStripList v) else none
      | _ => none
    (pick (lit "model_slug")).orElse (fun _ =>
      (pick (lit "model")).orElse (fun _ => pick (lit "model_name")))
  | _ => none

/-- extractTextFromContent models `_extract_text_from_content`. -/
def extractTextFromContent (content : Json) : Str :=
  match content with
  | Json.obj cfs =>
    match jget cfs (lit "content_type") with
    | Json.str ct =>
      if ct = lit "text" then
        match jget cfs (lit "parts") with
        | Json.arr parts =>
          pyStripList (List.intercalate (lit "\n")
            (parts.filterMap (fun p =>
              match p with
              | Json.null => none
              | other => some (pyStr other))))
        | _ => []
      else if ct = lit "multimodal_text" then
        match jget cfs (lit "parts") with
        | Json.arr parts =>
          let chunks : List Str := parts.filterMap (fun part =>
            match part with
            | Json.str s => some s
            | Json.obj pfs =>
              if hasKey pfs (lit "text") then
                some (orEmptyStr (jget pfs (lit "text")))
              else none
            | _ => none)
          pyStripList (List.intercalate (lit "\n") (chunks.filter (fun c => c ≠ [])))
        | _ => []
      else []
    | _ => []
  | _ => []

/-- iterMessages models `_iter_messages`: the nodes of the `mapping` dict
whose `message` payload is truthy (a non-empty dict). -/
def iterMessages (conv : JObj) : List JObj :=
  match jget conv (lit "mapping") with
  | Json.obj nodes =>
    nodes.filterMap (fun kv =>
      match kv.2 with
      | Json.obj nfs =>
        match jget nfs (lit "message") with
        | Json.obj mfs => if mfs.isEmpty then none else some mfs
        | _ => none
      | _ => none)
  | _ => []

/-- chatgptMsgOne models one iteration of the message loop of
`_read_chatgpt_export`; an out-of-range message `create_time` raises
through `_dt_from_ts` (modelled as `.error`). -/
def chatgptMsgOne (convId title : Str) (year : Option Int) (roleScope : List Str)
    (msg : JObj) : Except Str (Option Message) :=
  match dtFromTs (jget msg (lit "create_time")) with
  | Except.error e => Except.error e
  | Except.ok none => Except.ok none
  | Except.ok (some created) =>
    if yearMismatch year created then Except.ok none
    else
      let role := getRole msg
      if role ∉ roleScope then Except.ok none
      else
        let text := extractTextFromContent (jget msg (lit "content"))
        if text = [] then Except.ok none
        else
          Except.ok (some
            { conversation_id := convId
              conversation_title := title
              message_id := orEmptyStr (jget msg (lit "id"))
              role := role
              created_at := created
              text := text
              model := getModel msg })

/-- readChatgptConvs is the conversation loop of `_read_chatgpt_export`:
the conversation-level `create_time`/`update_time` are parsed first (an
out-of-range value raises here, before any message of that conversation),
then the mapping's messages are extracted. -/
def readChatgptConvs (year : Option Int) (roleScope : List Str) :
    List JObj → Except Str (List Conversation × List Message)
  | [] => Except.ok ([], [])
  | conv :: rest =>
    let convId := orEmptyStr (jget conv (lit "id"))
    let title := orUntitled (jget conv (lit "title"))
    match dtFromTs (jget conv (lit "create_time")) with
    | Except.error e => Except.error e
    | Except.ok ca =>
      match dtFromTs (jget conv (lit "update_time")) with
      | Except.error e => Except.error e
      | Except.ok ua =>
        let c : Conversation :=
          { conversation_id := convId, title := title, created_at := ca, updated_at := ua }
        match collectMsgs (chatgptMsgOne convId title year roleScope) (iterMessages conv) with
        | Except.error e => Except.error e
        | Except.ok ms =>
          match readChatgptConvs year roleScope rest with
          | Except.error e => Except.error e
          | Except.ok (cs, msRest) => Except.ok (c :: cs, ms ++ msRest)

/-- readChatgptExport models `_read_chatgpt_export` (the final sort
included). -/
def readChatgptExport (conversationsRaw : List JObj) (year : Option Int)
    (roleScope : List Str) : Except Str Dataset :=
  match readChatgptConvs year roleScope conversationsRaw with
  | Except.error e => Except.error e
  | Except.ok (cs, ms) =>
    Except.ok { conversations := cs, messages := sortMessages ms, source := lit "chatgpt" }

/-- loadConversations models `_load_conversations_json` from the parsed
top-level JSON value onward: a non-list top level is a hard error
(`ValueError`), and non-dict entries of a list are filtered out. -/
def loadConversations (j : Json) : Except Str (List JObj) :=
  match j with
  | Json.arr items =>
    Except.ok (items.filterMap (fun c =>
      match c with
      | Json.obj fs => some fs
      | _ => none))
  | _ => Except.error (lit "conversations.json is not a list")

/-- readExportFromJson models `read_export` from the parsed top-level
JSON value onward: load, detect, dispatch (defaulting to the ChatGPT
normalizer for unknown formats). -/
def readExportFromJson (j : Json) (year : Option Int) (roleScope : List Str) :
    Except Str Dataset :=
  match loadConversations j with
  | Except.error e => Except.error e
  | Except.ok conversationsRaw =>
    if detectExportSource conversationsRaw = lit "claude" then
      readClaudeExport conversationsRaw year roleScope
    else
      readChatgptExport conversationsRaw year roleScope

/-! ### A backtracking regex matcher

Model of the `re` semantics needed by `analyze.py`'s three substitution
patterns: at a starting position the engine explores alternatives
depth-first, greedy quantifiers longest first; the first complete parse
wins.  A matcher takes the previously consumed character (for the `\b`
look-behind) and the remaining input, and returns the candidate states
after the match, in preference order. -/

/-- MState is a matcher state: last consumed character and remaining
input. -/
abbrev MState := Option Char × Str

/-- Matcher is the type of pattern fragments. -/
abbrev Matcher := Option Char → Str → List MState

/-- mseq sequences two fragments, preserving preference order. -/
def mseq (p q : Matcher) : Matcher := fun prev s =>
  (p prev s).flatMap (fun st => q st.1 st.2)

/-- meps is the empty fragment. -/
def meps : Matcher := fun prev s => [(prev, s)]

/-- mchain sequences a list of fragments. -/
def mchain (ps : List Matcher) : Matcher := ps.foldr mseq meps

/-- mchr matches one character of a class. -/
def mchr (pred : Char → Bool) : Matcher := fun _ s =>
  match s with
  | c :: rest => if pred c then [(some c, rest)] else []
  | [] => []

/-- mlit matches one literal character. -/
def mlit (c : Char) : Matcher := mchr (fun x => x = c)

/-- mlitI matches one literal character, ignoring case
(`re.IGNORECASE`). -/
def mlitI (c : Char) : Matcher := mchr (fun x => toLowerChar x = c)

/-- mrep is a greedy counted repetition of a character class: it offers
every permitted count, longest first. -/
def mrep (lo : Nat) (hi : Option Nat) (pred : Char → Bool) : Matcher := fun prev s =>
  let run := s.takeWhile pred
  let maxK := match hi with
    | some h => min h run.length
    | none => run.length
  if maxK < lo then []
  else
    (List.range (maxK - lo + 1)).map (fun i =>
      let k := maxK - i
      if k = 0 then (prev, s) else (run.get? (k - 1), s.drop k))

/-- mopt is a greedy optional group. -/
def mopt (p : Matcher) : Matcher := fun prev s => p prev s ++ [(prev, s)]

/-- mbound is the `\b` word-boundary assertion. -/
def mbound : Matcher := fun prev s =>
  let before := match prev with
    | some c => isWordChar c
    | none => false
  let after := match s with
    | c :: _ => isWordChar c
    | [] => false
  if before ≠ after then [(prev, s)] else []

/-- emailLocalClass is `[A-Z0-9._%+-]` with `re.IGNORECASE`. -/
def emailLocalClass (c : Char) : Bool :=
  isAlnumChar c || c = '.' || c = '_' || c = '%' || c = '+' || c = '-'

/-- emailDomainClass is `[A-Z0-9.-]` with `re.IGNORECASE`. -/
def emailDomainClass (c : Char) : Bool := isAlnumChar c || c = '.' || c = '-'

/-- emailMatcher models `_EMAIL_RE`:
`\b[A-Z0-9._%+-]+@[A-Z0-9.-]+\.[A-Z]{2,}\b`, case-insensitive. -/
def emailMatcher : Matcher :=
  mchain [mbound, mrep 1 none emailLocalClass, mlit '@',
    mrep 1 none emailDomainClass, mlit '.', mrep 2 none isAlphaChar, mbound]

/-- urlMatcher models `_URL_RE`: `\bhttps?://\S+\b`, case-insensitive. -/
def urlMatcher : Matcher :=
  mchain [mbound, mlitI 'h', mlitI 't', mlitI 't', mlitI 'p', mopt (mlitI 's'),
    mlit ':', mlit '/', mlit '/', mrep 1 none (fun c => !isSpaceChar c), mbound]

/-- phoneSepClass is `[-. ]`. -/
def phoneSepClass (c : Char) : Bool := c = '-' || c = '.' || c = ' '

/-- phoneMatcher models `_PHONE_RE`:
`\b(?:\+?\d{1,3}[-. ]?)?(?:\(?\d{2,3}\)?[-. ]?)?\d{3}[-. ]?\d{4}\b`. -/
def phoneMatcher : Matcher :=
  mchain [mbound,
    mopt (mchain [mopt (mlit '+'), mrep 1 (some 3) isDigitChar,
      mrep 0 (some 1) phoneSepClass]),
    mopt (mchain [mopt (mlit '('), mrep 2 (some 3) isDigitChar, mopt (mlit ')'),
      mrep 0 (some 1) phoneSepClass]),
    mrep 3 (some 3) isDigitChar, mrep 0 (some 1) phoneSepClass,
    mrep 4 (some 4) isDigitChar, mbound]

/-- subFuel is the scanning loop of `re.sub`: at each position take the
engine's preferred match if any, emit the replacement and resume after
the matched span, otherwise copy one character.  None of the three
patterns can match the empty string, so a fuel of the input length
suffices for the scan to complete. -/
def subFuel (m : Matcher) (repl : Str) : Nat → Option Char → Str → Str
  | 0, _, s => s
  | _ + 1, _, [] => []
  | fuel + 1, prev, c :: rest =>
    match m prev (c :: rest) with
    | (last, after) :: _ => repl ++ subFuel m repl fuel last after
    | [] => c :: subFuel m repl fuel (some c) rest

/-- pyRegexSub models `pattern.sub(repl, s)`. -/
def pyRegexSub (m : Matcher) (repl : Str) (s : Str) : Str :=
  subFuel m repl s.length none s

/-- redactText models `_redact`: email, then URL, then phone. -/
def redactText (text : Str) : Str :=
  let t1 := pyRegexSub emailMatcher (lit "[redacted-email]") text
  let t2 := pyRegexSub urlMatcher (lit "[redacted-url]") t1
  pyRegexSub phoneMatcher (lit "[redacted-phone]") t2

/-! ### Tokenization (`_WORD_RE`, `_tokenize`) -/

/-- isWordRunChar is the continuation class `[A-Za-z0-9'_-]` of
`_WORD_RE` (39 is the apostrophe). -/
def isWordRunChar (c : Char) : Bool :=
  isAlnumChar c || c.toNat = 39 || c = '_' || c = '-'

/-- wordRunsFuel is the scanning loop of `_WORD_RE.finditer`: a match
starts at an alphanumeric character, greedily extends over at least one
more character of the continuation class, and scanning resumes after the
match; each step consumes at least one character, so a fuel of the input
length suffices. -/
def wordRunsFuel : Nat → Str → List Str
  | 0, _ => []
  | _ + 1, [] => []
  | fuel + 1, c :: rest =>
    if isAlnumChar c then
      let run := rest.takeWhile isWordRunChar
      if run.isEmpty then wordRunsFuel fuel rest
      else (c :: run) :: wordRunsFuel fuel (rest.dropWhile isWordRunChar)
    else wordRunsFuel fuel rest

/-- wordRuns models `_WORD_RE.finditer`. -/
def wordRuns (s : Str) : List Str := wordRunsFuel s.length s

/-- STOPWORDS models `_STOPWORDS`. -/
def STOPWORDS : List Str :=
  [lit "a", lit "an", lit "and", lit "are", lit "as", lit "at", lit "be",
   lit "but", lit "by", lit "can", lit "do", lit "for", lit "from",
   lit "have", lit "how", lit "i", lit "if", lit "in", lit "is", lit "it",
   lit "just", lit "like", lit "me", lit "my", lit "not", lit "of",
   lit "on", lit "or", lit "please", lit "so", lit "that", lit "the",
   lit "their", lit "them", lit "then", lit "there", lit "these",
   lit "they", lit "this", lit "to", lit "we", lit "what", lit "when",
   lit "where", lit "which", lit "with", lit "would", lit "you", lit "your"]

/-- pyIsDigitStr models `str.isdigit`: non-empty and all digits. -/
def pyIsDigitStr (w : Str) : Bool := !w.isEmpty && w.all isDigitChar

/-- tokenize models `_tokenize`: the matched runs, lower-cased, with stop
words and purely numeric tokens discarded. -/
def tokenize (text : Str) : List Str :=
  ((wordRuns text).map pyLower).filter
    (fun w => !STOPWORDS.contains w && !pyIsDigitStr w)

/-- bigramsOf models `_bigrams`: space-joined adjacent token pairs. -/
def bigramsOf (tokens : List Str) : List Str :=
  (tokens.zip (tokens.drop 1)).map (fun ab => ab.1 ++ ' ' :: ab.2)

/-! ### Streak computation (`_compute_longest_streak`) -/

/-- sortedDedupDays models `sorted(set(days))`: the increasing
enumeration of the distinct day ordinals. -/
def sortedDedupDays (days : List Int) : List Int :=
  (List.insertionSort (fun a b : Int => a ≤ b) days).dedup

/-- streakLoop is the `zip(days_sorted, days_sorted[1:])` loop of
`_compute_longest_streak`: a gap resets the current run to 1. -/
def streakLoop : Int → Nat → Nat → List Int → Nat
  | _, best, _, [] => best
  | prev, best, cur, nxt :: rest =>
    if nxt - prev = 1 then streakLoop nxt (max best (cur + 1)) (cur + 1) rest
    else streakLoop nxt best 1 rest

/-- computeLongestStreak models `_compute_longest_streak` on day
ordinals (`(nxt - prev).days` is ordinal subtraction). -/
def computeLongestStreak (days : List Int) : Nat :=
  match sortedDedupDays days with
  | [] => 0
  | d :: ds => streakLoop d 1 1 ds

/-! ### Counters (`collections.Counter`) -/

/-- Counter models a `Counter[str]` as an insertion-ordered association
list, as CPython dicts are. -/
abbrev Counter := List (Str × Nat)

/-- counterAdd models `counter[k] += 1`. -/
def counterAdd (c : Counter) (k : Str) : Counter :=
  match c with
  | [] => [(k, 1)]
  | (k1, n) :: rest => if k1 = k then (k1, n + 1) :: rest else (k1, n) :: counterAdd rest k

/-- counterAddMany models `counter.update(keys)`. -/
def counterAddMany (c : Counter) (ks : List Str) : Counter := ks.foldl counterAdd c

/-- counterGet models `counter[k]` (missing keys count 0). -/
def counterGet (c : Counter) (k : Str) : Nat :=
  match c with
  | [] => 0
  | (k1, n) :: rest => if k1 = k then n else counterGet rest k

/-- counterTotal models `sum(counter.values())`. -/
def counterTotal (c : Counter) : Nat := (c.map Prod.snd).sum

/-- countDescLe is the by-count descending order used by
`most_common`. -/
def countDescLe (a b : Str × Nat) : Prop := b.2 ≤ a.2

instance : DecidableRel countDescLe := fun a b => inferInstanceAs (Decidable (b.2 ≤ a.2))

/-- mostCommon models `counter.most_common(n)`: by count descending,
ties in insertion order (stable). -/
def mostCommon (c : Counter) (n : Nat) : Counter :=
  (List.insertionSort countDescLe c).take n

/-- keyAscLe is the ascending key order used to sort the month and day
histograms (Python string comparison is code-point lexicographic). -/
def keyAscLe (a b : Str × Nat) : Prop := String.mk a.1 ≤ String.mk b.1

instance : DecidableRel keyAscLe :=
  fun a b => inferInstanceAs (Decidable (String.mk a.1 ≤ String.mk b.1))

/-- sortByKey models `dict(sorted(counter.items(), key=lambda kv:
kv[0]))`. -/
def sortByKey (c : Counter) : Counter := List.insertionSort keyAscLe c

/-- sortedCounterTable models the local helper `_sorted_counter`:
`most_common(limit)` with falsy (empty) keys dropped. -/
def sortedCounterTable (c : Counter) (limit : Nat) : Counter :=
  (mostCommon c limit).filter (fun kv => !kv.1.isEmpty)

/-- maxByCount models `max(items, key=lambda kv: kv[1])` over a dict's
items: the first entry of maximal count in iteration order (`none` on an
empty dict). -/
def maxByCount : Counter → Option (Str × Nat)
  | [] => none
  | x :: xs => some (xs.foldl (fun best kv => if best.2 < kv.2 then kv else best) x)

/-- topKey models the local helper `_top_key`:
`counter.most_common(1)[0][0] if counter else None`. -/
def topKey (c : Counter) : Option Str := (mostCommon c 1).head?.map Prod.fst

/-- parseIntStr models `int(s)` on a string, `None` on `ValueError`. -/
def parseIntStr (s : Str) : Option Int :=
  let s := pyStripList s
  let (neg, ds) : Bool × Str :=
    match s with
    | '-' :: rest => (true, rest)
    | '+' :: rest => (false, rest)
    | _ => (false, s)
  if ds ≠ [] ∧ ds.all isDigitChar then
    let mag : Int := ds.foldl (fun a c => a * 10 + (digitToNat c : Int)) 0
    some (if neg then -mag else mag)
  else none

/-! ### The analytics engine (`summarize`) -/

/-- Excerpt is the excerpt record of `analyze.py`. -/
structure Excerpt where
  conversation_id : Str
  title : Str
  created_at_iso : Str
  role : Str
  text : Str
  deriving DecidableEq, Repr

/-- Summary is the summary record of `analyze.py`.  `words_per_message`
is exact rational division standing in for float division. -/
structure Summary where
  year : Option Int
  total_conversations : Nat
  total_messages : Nat
  total_user_messages : Nat
  total_assistant_messages : Nat
  total_words : Nat
  words_per_message : Rat
  first_message_iso : Option Str
  last_message_iso : Option Str
  active_days : Nat
  longest_streak_days : Nat
  busiest_day_local : Option Str
  busiest_day_messages : Nat
  busiest_hour_local : Option Int
  busiest_hour_messages : Nat
  messages_by_month : List (Str × Nat)
  messages_by_day_local : List (Str × Nat)
  messages_by_weekday : List (Str × Nat)
  messages_by_hour_local : List (Str × Nat)
  top_words : List (Str × Nat)
  top_bigrams : List (Str × Nat)
  top_titles : List (Str × Nat)
  top_models : List (Str × Nat)
  longest_conversations : List (Str × Nat)
  excerpts : List Excerpt
  fun_facts : List Str

/-- weekdayNames is the weekday key list of `_weekday_key`. -/
def weekdayNames : List Str :=
  [lit "Mon", lit "Tue", lit "Wed", lit "Thu", lit "Fri", lit "Sat", lit "Sun"]

/-- monthKey models `_month_key`. -/
def monthKey (dt : PyDateTime) : Str :=
  padNat 4 dt.year.toNat ++ '-' :: padNat 2 dt.month

/-- weekdayKey models `_weekday_key`. -/
def weekdayKey (dt : PyDateTime) : Str := weekdayNames.getD dt.weekdayIdx []

/-- orUntitledStr models `m.conversation_title or "Untitled"`. -/
def orUntitledStr (s : Str) : Str := if s ≠ [] then s else lit "Untitled"

/-- AccState is the accumulator of the single pass over the message
sequence in `summarize` (the set of active days is kept as a
duplicate-free list). -/
structure AccState where
  byMonth : Counter
  byWeekday : Counter
  byDay : Counter
  byHour : Counter
  topTitles : Counter
  topModels : Counter
  words : Counter
  bigrams : Counter
  convCounts : Counter
  activeDays : List Int
  firstIso : Option Str
  lastIso : Option Str

/-- initAcc starts the pass with empty aggregates. -/
def initAcc : AccState :=
  { byMonth := [], byWeekday := [], byDay := [], byHour := [], topTitles := [],
    topModels := [], words := [], bigrams := [], convCounts := [],
    activeDays := [], firstIso := none, lastIso := none }

/-- insertDay models `set.add`. -/
def insertDay (s : List Int) (d : Int) : List Int := if d ∈ s then s else s ++ [d]

/-- accStep is one iteration of the `for m in messages` loop of
`summarize`. -/
def accStep (st : AccState) (m : Message) : AccState :=
  let iso := m.created_at.isoformat
  let tokens := tokenize m.text
  { byMonth := counterAdd st.byMonth (monthKey m.created_at)
    byWeekday := counterAdd st.byWeekday (weekdayKey m.created_at)
    byDay := counterAdd st.byDay m.created_at.localDateIso
    byHour := counterAdd st.byHour (natToStr m.created_at.localHour)
    topTitles := counterAdd st.topTitles (orUntitledStr m.conversation_title)
    topModels :=
      match m.model with
      | some mo => if mo ≠ [] then counterAdd st.topModels mo else st.topModels
      | none => st.topModels
    words := counterAddMany st.words tokens
    bigrams := counterAddMany st.bigrams (bigramsOf tokens)
    convCounts := counterAdd st.convCounts (orUntitledStr m.conversation_title)
    activeDays := insertDay st.activeDays m.created_at.localDateOrdinal
    firstIso :=
      match st.firstIso with
      | some s => if s ≠ [] then some s else some iso
      | none => some iso
    lastIso := some iso }

/-- normalizeSnippet is the whitespace normalization applied to an
excerpt: strip, CRLF and CR to LF, strip each line, drop blank lines. -/
def normalizeSnippet (text : Str) : Str :=
  let s := pyStripList text
  let s := pyReplace (lit "\r\n") (lit "\n") s
  let s := pyReplace (lit "\r") (lit "\n") s
  List.intercalate (lit "\n")
    (((s.splitOn '\n').map pyStripList).filter (fun l => !l.isEmpty))

/-- truncateSnippet models `snippet[:360] + ("…" if len(snippet) > 360
else "")`. -/
def truncateSnippet (s : Str) : Str :=
  if 360 < s.length then s.take 360 ++ ['…'] else s

/-- mkExcerptText is the full excerpt text transform: normalize,
truncate, then redact when requested. -/
def mkExcerptText (redact : Bool) (text : Str) : Str :=
  let snippet := truncateSnippet (normalizeSnippet text)
  if redact then redactText snippet else snippet

/-- excerptLoop is the excerpt-collection loop of `summarize`: append
each non-empty excerpt, stop as soon as `maxE` are collected. -/
def excerptLoop (redact : Bool) (maxE : Nat) : List Message → List Excerpt → List Excerpt
  | [], acc => acc
  | m :: ms, acc =>
    let snippet := mkExcerptText redact m.text
    let acc2 :=
      if snippet ≠ [] then
        acc ++ [{ conversation_id := m.conversation_id
                  title := orUntitledStr m.conversation_title
                  created_at_iso := m.created_at.isoformat
                  role := m.role
                  text := snippet : Excerpt }]
      else acc
    if maxE ≤ acc2.length then acc2 else excerptLoop redact maxE ms acc2

/-- padIntTwo models the `{:02d}` format on the busiest-hour value. -/
def padIntTwo (n : Int) : Str :=
  if n < 0 then '-' :: padNat 2 n.natAbs else padNat 2 n.toNat

/-- summarize models `summarize(dataset, year=year, redact=redact,
max_excerpts=max_excerpts)`. -/
def summarize (dataset : Dataset) (year : Option Int) (redact : Bool)
    (maxExcerpts : Nat) : Summary :=
  let messages := dataset.messages
  let totalMessages := messages.length
  let totalUser := messages.countP (fun m => m.role == lit "user")
  let totalAssistant := messages.countP (fun m => m.role == lit "assistant")
  let convIds := (messages.map Message.conversation_id).dedup
  let totalConversations :=
    if !convIds.isEmpty then convIds.length else dataset.conversations.length
  let st := messages.foldl accStep initAcc
  let totalWords := counterTotal st.words
  let wordsPerMessage : Rat :=
    if totalMessages ≠ 0 then (totalWords : Rat) / (totalMessages : Rat) else 0
  let longestStreak := computeLongestStreak st.activeDays
  let excerpts := excerptLoop redact maxExcerpts (messages.take (maxExcerpts * 2)) []
  let byMonthSorted := sortByKey st.byMonth
  let byWeekdaySorted := weekdayNames.map (fun k => (k, counterGet st.byWeekday k))
  let byDaySorted := sortByKey st.byDay
  let byHourSorted := (List.range 24).map (fun h => (natToStr h, counterGet st.byHour (natToStr h)))
  let busiestDay := maxByCount st.byDay
  let busiestDayLocal := busiestDay.map Prod.fst
  let busiestDayMessages := (busiestDay.map Prod.snd).getD 0
  let busiestHour := maxByCount st.byHour
  let busiestHourLocal : Option Int :=
    match busiestHour with
    | some kv => parseIntStr kv.1
    | none => none
  let busiestHourMessages := (busiestHour.map Prod.snd).getD 0
  let ff1 : List Str :=
    match topKey st.byMonth with
    | some tm => if tm ≠ [] then [lit "Most chatty month: " ++ tm] else []
    | none => []
  let ff2 : List Str :=
    match topKey st.byWeekday with
    | some tw => if tw ≠ [] then [lit "Favorite weekday: " ++ tw] else []
    | none => []
  let ff3 : List Str :=
    match busiestHourLocal with
    | some h => [lit "Peak hour (local): " ++ padIntTwo h ++ lit ":00"]
    | none => []
  let ff4 : List Str :=
    match busiestDayLocal with
    | some s =>
      if s ≠ [] then
        [lit "Busiest day: " ++ s ++ lit " (" ++ natToStr busiestDayMessages ++ lit " messages)"]
      else []
    | none => []
  let ff5 : List Str :=
    if longestStreak ≠ 0 then
      [lit "Longest streak: " ++ natToStr longestStreak ++ lit " days"]
    else []
  { year := year
    total_conversations := totalConversations
    total_messages := totalMessages
    total_user_messages := totalUser
    total_assistant_messages := totalAssistant
    total_words := totalWords
    words_per_message := wordsPerMessage
    first_message_iso := st.firstIso
    last_message_iso := st.lastIso
    active_days := st.activeDays.length
    longest_streak_days := longestStreak
    busiest_day_local := busiestDayLocal
    busiest_day_messages := busiestDayMessages
    busiest_hour_local := busiestHourLocal
    busiest_hour_messages := busiestHourMessages
    messages_by_month := byMonthSorted
    messages_by_day_local := byDaySorted
    messages_by_weekday := byWeekdaySorted
    messages_by_hour_local := byHourSorted
    top_words := sortedCounterTable st.words 30
    top_bigrams := sortedCounterTable st.bigrams 30
    top_titles := sortedCounterTable st.topTitles 15
    top_models := sortedCounterTable st.topModels 10
    longest_conversations := sortedCounterTable st.convCounts 10
    excerpts := excerpts
    fun_facts := ff1 ++ ff2 ++ ff3 ++ ff4 ++ ff5 }

/-! ### Supporting lemmas -/

/-- sortMessages produces a key-sorted list. -/
theorem sortMessages_sorted (l : List Message) : List.Pairwise keyLe (sortMessages l) :=
  List.sorted_insertionSort keyLe l

/-- readClaudeExport returns a key-sorted message sequence whenever it
succeeds. -/
theorem readClaudeExport_sorted (raw : List JObj) (year : Option Int)
    (roleScope : List Str) (d : Dataset)
    (h : readClaudeExport raw year roleScope = Except.ok d) :
    List.Pairwise keyLe d.messages := by
  unfold readClaudeExport at h
  split at h
  · exact absurd h (by simp)
  · cases h
    exact sortMessages_sorted _

/-- readChatgptExport returns a key-sorted message sequence whenever it
succeeds. -/
theorem readChatgptExport_sorted (raw : List JObj) (year : Option Int)
    (roleScope : List Str) (d : Dataset)
    (h : readChatgptExport raw year roleScope = Except.ok d) :
    List.Pairwise keyLe d.messages := by
  unfold readChatgptExport at h
  split at h
  · exact absurd h (by simp)
  · cases h
    exact sortMessages_sorted _

/-! ### Claims -/

/-- Claim C1: for every `Dataset` returned by `read_export` (via either
the ChatGPT or the Claude normalizer), the message sequence is sorted in
ascending total order by the key `(created_at, conversation_id,
message_id)`: any message is key-`≤` every later message of the
sequence. -/
theorem c1_read_export_messages_sorted (j : Json) (year : Option Int)
    (roleScope : List Str) (d : Dataset)
    (h : readExportFromJson j year roleScope = Except.ok d) :
    List.Pairwise keyLe d.messages := by
  unfold readExportFromJson at h
  split at h
  · exact absurd h (by simp)
  · split at h
    · exact readClaudeExport_sorted _ year roleScope d h
    · exact readChatgptExport_sorted _ year roleScope d h

/-- c1ExampleJson is a concrete Claude-shaped export whose two messages
appear out of chronological order in the raw file. -/
def c1ExampleJson : Json :=
  Json.arr [Json.obj
    [(lit "uuid", Json.str (lit "c1")),
     (lit "name", Json.str (lit "Chat")),
     (lit "created_at", Json.str (lit "2024-01-01T00:00:00Z")),
     (lit "chat_messages", Json.arr
       [Json.obj [(lit "uuid", Json.str (lit "m2")),
          (lit "sender", Json.str (lit "assistant")),
          (lit "created_at", Json.str (lit "2024-01-03T10:00:00Z")),
          (lit "text", Json.str (lit "later message"))],
        Json.obj [(lit "uuid", Json.str (lit "m1")),
          (lit "sender", Json.str (lit "human")),
          (lit "created_at", Json.str (lit "2024-01-02T10:00:00Z")),
          (lit "text", Json.str (lit "hello there"))]])]]

/-- defaultRoleScope is the recommended role filter. -/
def defaultRoleScope : List Str := [lit "user", lit "assistant"]

/-- Witness for C1: reading the concrete export succeeds and yields a
key-sorted sequence. -/
theorem c1_read_export_messages_sorted_witness :
    ∃ d, readExportFromJson c1ExampleJson none defaultRoleScope = Except.ok d ∧
      List.Pairwise keyLe d.messages := by
  refine ⟨_, rfl, ?_⟩
  exact c1_read_export_messages_sorted c1ExampleJson none defaultRoleScope _ rfl

/-- Claim C6: format detection depends only on the first element of the
raw conversation list; the empty list is `unknown`; a first record with
both `chat_messages` and `uuid` is `claude`; otherwise one with both
`mapping` and `id` is `chatgpt`; otherwise `unknown`. -/
theorem c6_detect_export_source (first : JObj) (rest1 rest2 : List JObj) :
    detectExportSource [] = lit "unknown" ∧
    detectExportSource (first :: rest1) = detectExportSource (first :: rest2) ∧
    (hasKey first (lit "chat_messages") = true → hasKey first (lit "uuid") = true →
      detectExportSource (first :: rest1) = lit "claude") ∧
    ((hasKey first (lit "chat_messages") = false ∨ hasKey first (lit "uuid") = false) →
      hasKey first (lit "mapping") = true → hasKey first (lit "id") = true →
      detectExportSource (first :: rest1) = lit "chatgpt") ∧
    ((hasKey first (lit "chat_messages") = false ∨ hasKey first (lit "uuid") = false) →
      (hasKey first (lit "mapping") = false ∨ hasKey first (lit "id") = false) →
      detectExportSource (first :: rest1) = lit "unknown") := by
  refine ⟨rfl, rfl, ?_, ?_, ?_⟩
  · intro h1 h2
    simp [detectExportSource, h1, h2]
  · intro h0 h1 h2
    rcases h0 with h0 | h0 <;> simp [detectExportSource, h0, h1, h2]
  · intro h0 h3
    rcases h0 with h0 | h0 <;> rcases h3 with h3 | h3 <;>
      simp [detectExportSource, h0, h3]

/-- Witness for C6: the three concrete classifications from the spec's
test list. -/
theorem c6_detect_export_source_witness :
    detectExportSource [] = lit "unknown" ∧
    detectExportSource [[(lit "chat_messages", Json.arr []), (lit "uuid", Json.str (lit "u"))]] =
      lit "claude" ∧
    detectExportSource [[(lit "mapping", Json.obj []), (lit "id", Json.str (lit "i"))]] =
      lit "chatgpt" := by
  refine ⟨(c6_detect_export_source [] [] []).1, ?_, ?_⟩
  · exact (c6_detect_export_source _ [] []).2.2.1 (by decide) (by decide)
  · exact (c6_detect_export_source _ [] []).2.2.2.1 (Or.inl (by decide)) (by decide) (by decide)

/-- Claim C7: the `total_conversations` field equals the number of
distinct `conversation_id` values among the dataset's messages when at
least one message is present, and the length of the dataset's
conversations list when no messages are present. -/
theorem c7_total_conversations (ds : Dataset) (year : Option Int) (redact : Bool)
    (maxExcerpts : Nat) :
    (summarize ds year redact maxExcerpts).total_conversations =
      if ds.messages.isEmpty then ds.conversations.length
      else (ds.messages.map Message.conversation_id).toFinset.card := by
  have hproj : (summarize ds year redact maxExcerpts).total_conversations =
      (if !(ds.messages.map Message.conversation_id).dedup.isEmpty then
        (ds.messages.map Message.conversation_id).dedup.length
      else ds.conversations.length) := rfl
  rw [hproj, List.card_toFinset]
  rcases hm : ds.messages with _ | ⟨m, ms⟩
  · simp
  · simp [List.isEmpty_iff, List.dedup_eq_nil]

/-- Claim C9: on a dataset with zero messages, `summarize` returns
gracefully degraded values: zero counts, a guarded 0 rate, empty month
and day histograms, empty top-K tables, no excerpts, no busiest day or
hour, a zero streak and no fun facts. -/
theorem c9_summarize_empty_dataset (conversations : List Conversation) (src : Str)
    (year : Option Int) (redact : Bool) (maxExcerpts : Nat) :
    (summarize ⟨conversations, [], src⟩ year redact maxExcerpts).total_messages = 0 ∧
    (summarize ⟨conversations, [], src⟩ year redact maxExcerpts).words_per_message = 0 ∧
    (summarize ⟨conversations, [], src⟩ year redact maxExcerpts).messages_by_month = [] ∧
    (summarize ⟨conversations, [], src⟩ year redact maxExcerpts).messages_by_day_local = [] ∧
    (summarize ⟨conversations, [], src⟩ year redact maxExcerpts).top_words = [] ∧
    (summarize ⟨conversations, [], src⟩ year redact maxExcerpts).top_bigrams = [] ∧
    (summarize ⟨conversations, [], src⟩ year redact maxExcerpts).top_titles = [] ∧
    (summarize ⟨conversations, [], src⟩ year redact maxExcerpts).top_models = [] ∧
    (summarize ⟨conversations, [], src⟩ year redact maxExcerpts).longest_conversations = [] ∧
    (summarize ⟨conversations, [], src⟩ year redact maxExcerpts).excerpts = [] ∧
    (summarize ⟨conversations, [], src⟩ year redact maxExcerpts).busiest_day_local = none ∧
    (summarize ⟨conversations, [], src⟩ year redact maxExcerpts).busiest_hour_local = none ∧
    (summarize ⟨conversations, [], src⟩ year redact maxExcerpts).longest_streak_days = 0 ∧
    (summarize ⟨conversations, [], src⟩ year redact maxExcerpts).fun_facts = [] := by
  refine ⟨rfl, rfl, rfl, rfl, rfl, rfl, rfl, rfl, rfl, ?_, rfl, rfl, rfl, rfl⟩
  show excerptLoop redact maxExcerpts (List.take (maxExcerpts * 2) []) [] = []
  rw [List.take_nil, excerptLoop]

/-! ### Counter bookkeeping lemmas (for the histogram claims) -/

/-- foldl_accStep_proj: every counter component of the summarize pass is
the fold of `counterAdd` over the per-message keys. -/
theorem foldl_accStep_proj (f : AccState → Counter) (g : Message → Str)
    (hstep : ∀ st m, f (accStep st m) = counterAdd (f st) (g m)) :
    ∀ (ms : List Message) (st : AccState),
      f (ms.foldl accStep st) = counterAddMany (f st) (ms.map g) := by
  intro ms
  induction ms with
  | nil => intro st; rfl
  | cons m ms ih =>
    intro st
    simp only [List.foldl_cons, List.map_cons]
    rw [ih, hstep]
    rfl

/-- counterGet_counterAdd: incrementing key `k` raises exactly the count
of `k`. -/
theorem counterGet_counterAdd (c : Counter) (k k1 : Str) :
    counterGet (counterAdd c k) k1 = counterGet c k1 + (if k = k1 then 1 else 0) := by
  induction c with
  | nil =>
    simp only [counterAdd, counterGet]
    by_cases h : k = k1
    · simp [h]
    · simp [h]
  | cons kv rest ih =>
    obtain ⟨k0, n⟩ := kv
    by_cases h0 : k0 = k
    · subst h0
      simp only [counterAdd, if_pos rfl, counterGet]
      by_cases h1 : k0 = k1
      · rw [if_pos h1, if_pos h1, if_pos h1]
      · rw [if_neg h1, if_neg h1, if_neg h1, Nat.add_zero]
    · simp only [counterAdd, if_neg h0, counterGet]
      by_cases h1 : k0 = k1
      · have hk : ¬k = k1 := fun hh => h0 (h1.trans hh.symm)
        rw [if_pos h1, if_pos h1, if_neg hk, Nat.add_zero]
      · rw [if_neg h1, if_neg h1, ih]

/-- counterGet_counterAddMany: after folding a key list, the count of a
key is its prior count plus its multiplicity in the list. -/
theorem counterGet_counterAddMany (ks : List Str) (c : Counter) (k : Str) :
    counterGet (counterAddMany c ks) k = counterGet c k + ks.count k := by
  induction ks generalizing c with
  | nil => simp [counterAddMany]
  | cons k0 ks ih =>
    have hstep : counterAddMany c (k0 :: ks) = counterAddMany (counterAdd c k0) ks := rfl
    rw [hstep, ih, counterGet_counterAdd]
    by_cases h : k0 = k
    · simp [List.count_cons, h]
      omega
    · simp [List.count_cons, h]

/-- counterAdd_keys: incrementing leaves the key list unchanged when the
key is present, and appends it when absent. -/
theorem counterAdd_keys (c : Counter) (k : Str) :
    (counterAdd c k).map Prod.fst =
      if k ∈ c.map Prod.fst then c.map Prod.fst else c.map Prod.fst ++ [k] := by
  induction c with
  | nil => simp [counterAdd]
  | cons kv rest ih =>
    obtain ⟨k0, n⟩ := kv
    by_cases h0 : k0 = k
    · subst h0
      simp [counterAdd]
    · simp only [counterAdd, if_neg h0, List.map_cons, ih, List.mem_cons]
      have hne : ¬k = k0 := fun hh => h0 hh.symm
      by_cases h1 : k ∈ rest.map Prod.fst
      · rw [if_pos h1, if_pos (Or.inr h1)]
      · rw [if_neg h1, if_neg (by tauto)]
        rfl

/-- counterKeys_counterAddMany: every key of the folded counter comes
from the prior counter or from the key list. -/
theorem counterKeys_counterAddMany (ks : List Str) (c : Counter) (k : Str)
    (h : k ∈ (counterAddMany c ks).map Prod.fst) : k ∈ c.map Prod.fst ∨ k ∈ ks := by
  induction ks generalizing c with
  | nil => exact Or.inl h
  | cons k0 ks ih =>
    have hstep : counterAddMany c (k0 :: ks) = counterAddMany (counterAdd c k0) ks := rfl
    rw [hstep] at h
    rcases ih _ h with h2 | h2
    · rw [counterAdd_keys] at h2
      by_cases hin : k0 ∈ c.map Prod.fst
      · rw [if_pos hin] at h2
        exact Or.inl h2
      · rw [if_neg hin] at h2
        rcases List.mem_append.mp h2 with h3 | h3
        · exact Or.inl h3
        · exact Or.inr (by simp at h3; simp [h3])
    · exact Or.inr (by simp [h2])

/-- mem_sortByKey: sorting a counter by key permutes its entries. -/
theorem mem_sortByKey (c : Counter) (kv : Str × Nat) (h : kv ∈ sortByKey c) : kv ∈ c :=
  (List.perm_insertionSort keyAscLe c).mem_iff.mp h

/-- Claim C10: the weekday histogram is exactly the seven fixed keys
Mon..Sun in order, and the hour histogram exactly the keys "0".."23" in
order, each key paired with the number of messages falling in that
bucket (0 when none, even on an empty dataset); the month and day
histograms contain only keys that some message touched. -/
theorem c10_histogram_keys (ds : Dataset) (year : Option Int) (redact : Bool)
    (maxExcerpts : Nat) :
    (summarize ds year redact maxExcerpts).messages_by_weekday =
      weekdayNames.map (fun w =>
        (w, (ds.messages.map (fun m => weekdayKey m.created_at)).count w)) ∧
    (summarize ds year redact maxExcerpts).messages_by_hour_local =
      (List.range 24).map (fun h =>
        (natToStr h, (ds.messages.map (fun m => natToStr m.created_at.localHour)).count (natToStr h))) ∧
    ((summarize ds year redact maxExcerpts).messages_by_weekday.map Prod.fst = weekdayNames) ∧
    ((summarize ds year redact maxExcerpts).messages_by_hour_local.map Prod.fst =
      (List.range 24).map natToStr) ∧
    (∀ kv ∈ (summarize ds year redact maxExcerpts).messages_by_month,
      ∃ m ∈ ds.messages, monthKey m.created_at = kv.1) ∧
    (∀ kv ∈ (summarize ds year redact maxExcerpts).messages_by_day_local,
      ∃ m ∈ ds.messages, m.created_at.localDateIso = kv.1) := by
  have hweek : (summarize ds year redact maxExcerpts).messages_by_weekday =
      weekdayNames.map (fun k =>
        (k, counterGet ((ds.messages.foldl accStep initAcc).byWeekday) k)) := rfl
  have hhour : (summarize ds year redact maxExcerpts).messages_by_hour_local =
      (List.range 24).map (fun h =>
        (natToStr h, counterGet ((ds.messages.foldl accStep initAcc).byHour) (natToStr h))) := rfl
  have hwproj := foldl_accStep_proj AccState.byWeekday
    (fun m => weekdayKey m.created_at) (fun _ _ => rfl) ds.messages initAcc
  have hhproj := foldl_accStep_proj AccState.byHour
    (fun m => natToStr m.created_at.localHour) (fun _ _ => rfl) ds.messages initAcc
  have hmproj := foldl_accStep_proj AccState.byMonth
    (fun m => monthKey m.created_at) (fun _ _ => rfl) ds.messages initAcc
  have hdproj := foldl_accStep_proj AccState.byDay
    (fun m => m.created_at.localDateIso) (fun _ _ => rfl) ds.messages initAcc
  refine ⟨?_, ?_, ?_, ?_, ?_, ?_⟩
  · rw [hweek]
    refine List.map_congr_left (fun w _ => ?_)
    rw [hwproj, counterGet_counterAddMany]
    simp [initAcc, counterGet]
  · rw [hhour]
    refine List.map_congr_left (fun h _ => ?_)
    rw [hhproj, counterGet_counterAddMany]
    simp [initAcc, counterGet]
  · rw [hweek, List.map_map]
    simp [Function.comp_def]
  · rw [hhour, List.map_map]
    simp [Function.comp_def]
  · intro kv hkv
    have hmon : (summarize ds year redact maxExcerpts).messages_by_month =
        sortByKey ((ds.messages.foldl accStep initAcc).byMonth) := rfl
    rw [hmon] at hkv
    have hmem := mem_sortByKey _ _ hkv
    have hkey : kv.1 ∈ ((ds.messages.foldl accStep initAcc).byMonth).map Prod.fst :=
      List.mem_map.mpr ⟨kv, hmem, rfl⟩
    rw [hmproj] at hkey
    rcases counterKeys_counterAddMany _ _ _ hkey with h | h
    · simp [initAcc] at h
    · obtain ⟨m, hm, he⟩ := List.mem_map.mp h
      exact ⟨m, hm, he⟩
  · intro kv hkv
    have hday : (summarize ds year redact maxExcerpts).messages_by_day_local =
        sortByKey ((ds.messages.foldl accStep initAcc).byDay) := rfl
    rw [hday] at hkv
    have hmem := mem_sortByKey _ _ hkv
    have hkey : kv.1 ∈ ((ds.messages.foldl accStep initAcc).byDay).map Prod.fst :=
      List.mem_map.mpr ⟨kv, hmem, rfl⟩
    rw [hdproj] at hkey
    rcases counterKeys_counterAddMany _ _ _ hkey with h | h
    · simp [initAcc] at h
    · obtain ⟨m, hm, he⟩ := List.mem_map.mp h
      exact ⟨m, hm, he⟩

/-- c10ExampleMessage is a concrete canonical message. -/
def c10ExampleMessage : Message :=
  { conversation_id := lit "c"
    conversation_title := lit "T"
    message_id := lit "m"
    role := lit "user"
    created_at := ⟨1704189600⟩
    text := lit "hello world"
    model := none }

/-- c10ExampleDataset is a concrete one-message dataset. -/
def c10ExampleDataset : Dataset :=
  { conversations := [], messages := [c10ExampleMessage], source := lit "claude" }

/-- Witness for C10: the histogram shape at a concrete one-message
dataset. -/
theorem c10_histogram_keys_witness :
    (summarize c10ExampleDataset none false 3).messages_by_weekday =
      weekdayNames.map (fun w =>
        (w, ([weekdayKey c10ExampleMessage.created_at] : List Str).count w)) ∧
    (∀ kv ∈ (summarize c10ExampleDataset none false 3).messages_by_month,
      kv.1 = monthKey c10ExampleMessage.created_at) := by
  have h := c10_histogram_keys c10ExampleDataset none false 3
  refine ⟨h.1, fun kv hkv => ?_⟩
  obtain ⟨m, hm, he⟩ := h.2.2.2.2.1 kv hkv
  have hm2 : m = c10ExampleMessage := by
    simpa [c10ExampleDataset] using hm
  rw [hm2] at he
  exact he.symm

/-- c8OverflowExport is a ChatGPT-shaped list whose conversation-level
`create_time` parses as a float but lies outside `datetime`'s range. -/
def c8OverflowExport : Json :=
  Json.arr [Json.obj
    [(lit "id", Json.str (lit "g1")),
     (lit "mapping", Json.obj []),
     (lit "create_time", Json.num 1000000000000)]]

/-- c8UnhashableExport is a Claude-shaped list with one message whose
`sender` is a list (unhashable in Python). -/
def c8UnhashableExport : Json :=
  Json.arr [Json.obj
    [(lit "uuid", Json.str (lit "c1")),
     (lit "chat_messages", Json.arr [Json.obj
       [(lit "created_at", Json.str (lit "2024-01-02T10:00:00Z")),
        (lit "sender", Json.arr []),
        (lit "text", Json.str (lit "hi"))]])]]

/-- Counterexample for C8 as stated: two parsed top-level values that
ARE lists and on which ingestion nevertheless raises — an out-of-range
numeric `create_time` (in `_dt_from_ts`, `datetime.fromtimestamp` sits
outside the `try`) and an unhashable Claude `sender`
(`_claude_sender_to_role`'s dict lookup raises `TypeError`).  So
ingestion does not error exactly-iff the top level is not a list, and a
per-record anomaly can abort the run. -/
theorem c8_counterexample :
    (∃ items, c8OverflowExport = Json.arr items) ∧
    (∃ e, readExportFromJson c8OverflowExport none defaultRoleScope = Except.error e) ∧
    (∃ items, c8UnhashableExport = Json.arr items) ∧
    (∃ e, readExportFromJson c8UnhashableExport none defaultRoleScope = Except.error e) :=
  ⟨⟨_, rfl⟩, ⟨_, rfl⟩, ⟨_, rfl⟩, ⟨_, rfl⟩⟩

/-- Claim C8 (amended): a non-list top level always errors; each listed
per-record anomaly — unrecognized record shape, missing or unparseable
timestamp, a string role outside the requested scope, empty extracted
text — makes that one message yield nothing, and deleting such a record
leaves the extracted messages unchanged.  The "exactly when" direction
fails: a numeric timestamp that parses as a float but lies outside
`datetime`'s range raises (uncaught, `fromtimestamp` being outside the
`try`), as does an unhashable (list or dict) Claude `sender`. -/
theorem c8_failure_semantics_amended :
    (∀ (j : Json) (year : Option Int) (roleScope : List Str),
      (∀ items, j ≠ Json.arr items) →
      ∃ e, readExportFromJson j year roleScope = Except.error e) ∧
    (∀ (convId title : Str) (year : Option Int) (roleScope : List Str) (msg : Json),
      (∀ mfs, msg ≠ Json.obj mfs) →
      claudeMsgOne convId title year roleScope msg = Except.ok none) ∧
    (∀ (convId title : Str) (year : Option Int) (roleScope : List Str) (mfs : JObj),
      dtFromIso (jget mfs (lit "created_at")) = none →
      claudeMsgOne convId title year roleScope (Json.obj mfs) = Except.ok none) ∧
    (∀ (convId title : Str) (year : Option Int) (roleScope : List Str) (mfs : JObj)
        (s : Str),
      jgetD mfs (lit "sender") (Json.str []) = Json.str s →
      claudeSenderToRole s ∉ roleScope →
      claudeMsgOne convId title year roleScope (Json.obj mfs) = Except.ok none) ∧
    (∀ (convId title : Str) (year : Option Int) (roleScope : List Str) (mfs : JObj)
        (s : Str),
      jgetD mfs (lit "sender") (Json.str []) = Json.str s →
      extractClaudeText mfs = [] →
      claudeMsgOne convId title year roleScope (Json.obj mfs) = Except.ok none) ∧
    (∀ (convId title : Str) (year : Option Int) (roleScope : List Str) (msg : JObj),
      dtFromTs (jget msg (lit "create_time")) = Except.ok none →
      chatgptMsgOne convId title year roleScope msg = Except.ok none) ∧
    (∀ (convId title : Str) (year : Option Int) (roleScope : List Str) (msg : JObj)
        (created : PyDateTime),
      dtFromTs (jget msg (lit "create_time")) = Except.ok (some created) →
      getRole msg ∉ roleScope →
      chatgptMsgOne convId title year roleScope msg = Except.ok none) ∧
    (∀ (convId title : Str) (year : Option Int) (roleScope : List Str) (msg : JObj)
        (created : PyDateTime),
      dtFromTs (jget msg (lit "create_time")) = Except.ok (some created) →
      extractTextFromContent (jget msg (lit "content")) = [] →
      chatgptMsgOne convId title year roleScope msg = Except.ok none) ∧
    (∀ (α : Type) (f : α → Except Str (Option Message)) (pre post : List α) (bad : α),
      f bad = Except.ok none →
      collectMsgs f (pre ++ bad :: post) = collectMsgs f (pre ++ post)) ∧
    (∀ n : Int, n < minTimestamp ∨ maxTimestamp < n →
      dtFromTs (Json.num n) = Except.error (lit "timestamp out of range")) ∧
    (∀ (convId title : Str) (year : Option Int) (roleScope : List Str) (mfs : JObj)
        (created : PyDateTime),
      dtFromIso (jget mfs (lit "created_at")) = some created →
      yearMismatch year created = false →
      ((∃ items, jgetD mfs (lit "sender") (Json.str []) = Json.arr items) ∨
       (∃ fs, jgetD mfs (lit "sender") (Json.str []) = Json.obj fs)) →
      ∃ e, claudeMsgOne convId title year roleScope (Json.obj mfs) = Except.error e) := by
  refine ⟨?_, ?_, ?_, ?_, ?_, ?_, ?_, ?_, ?_, ?_, ?_⟩
  · intro j year roleScope hna
    cases j with
    | arr items => exact absurd rfl (hna items)
    | null => exact ⟨_, rfl⟩
    | bool b => exact ⟨_, rfl⟩
    | num n => exact ⟨_, rfl⟩
    | str s => exact ⟨_, rfl⟩
    | obj fs => exact ⟨_, rfl⟩
  · intro convId title year roleScope msg h
    cases msg with
    | obj mfs => exact absurd rfl (h mfs)
    | null => rfl
    | bool b => rfl
    | num n => rfl
    | str s => rfl
    | arr items => rfl
  · intro convId title year roleScope mfs h
    simp only [claudeMsgOne, h]
  · intro convId title year roleScope mfs s hs hrole
    simp only [claudeMsgOne]
    cases hdt : dtFromIso (jget mfs (lit "created_at")) with
    | none => rfl
    | some created =>
      by_cases hy : yearMismatch year created = true
      · simp [hy]
      · simp only [Bool.not_eq_true] at hy
        simp [hy, hs, hrole]
  · intro convId title year roleScope mfs s hs htext
    simp only [claudeMsgOne]
    cases hdt : dtFromIso (jget mfs (lit "created_at")) with
    | none => rfl
    | some created =>
      by_cases hy : yearMismatch year created = true
      · simp [hy]
      · simp only [Bool.not_eq_true] at hy
        by_cases hrole : claudeSenderToRole s ∈ roleScope
        · simp [hy, hs, hrole, htext]
        · simp [hy, hs, hrole]
  · intro convId title year roleScope msg h
    simp only [chatgptMsgOne, h]
  · intro convId title year roleScope msg created hdt hrole
    simp only [chatgptMsgOne, hdt]
    by_cases hy : yearMismatch year created = true
    · simp [hy]
    · simp only [Bool.not_eq_true] at hy
      simp [hy, hrole]
  · intro convId title year roleScope msg created hdt htext
    simp only [chatgptMsgOne, hdt]
    by_cases hy : yearMismatch year created = true
    · simp [hy]
    · simp only [Bool.not_eq_true] at hy
      by_cases hrole : getRole msg ∈ roleScope
      · simp [hy, hrole, htext]
      · simp [hy, hrole]
  · intro α f pre post bad hbad
    induction pre with
    | nil => simp only [List.nil_append, collectMsgs, hbad]
    | cons a as ih =>
      simp only [List.cons_append, collectMsgs, List.append_eq, ih]
  · intro n hn
    simp only [dtFromTs, fromTimestampChecked]
    rw [if_neg (by omega)]
  · intro convId title year roleScope mfs created hdt hy hsender
    rcases hsender with ⟨items, hs⟩ | ⟨fs, hs⟩ <;>
      exact ⟨lit "unhashable type", by simp [claudeMsgOne, hdt, hy, hs]⟩

/-- Witness for the amended C8 at concrete inputs: a non-list top level
errors, an unparseable string timestamp skips, an out-of-range numeric
timestamp raises, and an unhashable sender raises. -/
theorem c8_failure_semantics_amended_witness :
    (∃ e, readExportFromJson (Json.num 3) none defaultRoleScope = Except.error e) ∧
    claudeMsgOne (lit "c") (lit "T") none defaultRoleScope
      (Json.obj [(lit "created_at", Json.str (lit "nonsense"))]) = Except.ok none ∧
    dtFromTs (Json.num 1000000000000) = Except.error (lit "timestamp out of range") ∧
    (∃ e, claudeMsgOne (lit "c") (lit "T") none defaultRoleScope
      (Json.obj [(lit "created_at", Json.str (lit "2024-01-02T10:00:00Z")),
                 (lit "sender", Json.arr [])]) = Except.error e) := by
  refine ⟨?_, ?_, ?_, ?_⟩
  · exact c8_failure_semantics_amended.1 (Json.num 3) none defaultRoleScope
      (fun items h => by cases h)
  · exact c8_failure_semantics_amended.2.2.1 (lit "c") (lit "T") none defaultRoleScope _
      (by decide)
  · exact c8_failure_semantics_amended.2.2.2.2.2.2.2.2.2.1 1000000000000 (by decide)
  · exact c8_failure_semantics_amended.2.2.2.2.2.2.2.2.2.2 (lit "c") (lit "T") none
      defaultRoleScope _ ⟨1704189600⟩ (by decide) (by decide) (Or.inl ⟨[], rfl⟩)

/-- containsSub models the Python substring test `needle in hay`. -/
def containsSub (pat : Str) : Str → Bool
  | [] => pat.isEmpty
  | c :: rest => pat.isPrefixOf (c :: rest) || containsSub pat rest

set_option maxRecDepth 4000 in
set_option maxHeartbeats 12000000 in
/-- Claim C5: redaction applies the email pattern, then the URL pattern,
then the phone pattern, each replaced by its fixed placeholder; on the
spec's concrete string the result contains the three placeholders and no
longer contains any of the sensitive substrings. -/
theorem c5_redact_example :
    redactText (lit "contact me at a@b.com or http://x.com or 555-1234") =
      lit "contact me at [redacted-email] or [redacted-url] or [redacted-phone]" ∧
    containsSub (lit "[redacted-email]")
      (redactText (lit "contact me at a@b.com or http://x.com or 555-1234")) = true ∧
    containsSub (lit "[redacted-url]")
      (redactText (lit "contact me at a@b.com or http://x.com or 555-1234")) = true ∧
    containsSub (lit "[redacted-phone]")
      (redactText (lit "contact me at a@b.com or http://x.com or 555-1234")) = true ∧
    containsSub (lit "a@b.com")
      (redactText (lit "contact me at a@b.com or http://x.com or 555-1234")) = false ∧
    containsSub (lit "http://x.com")
      (redactText (lit "contact me at a@b.com or http://x.com or 555-1234")) = false ∧
    containsSub (lit "555-1234")
      (redactText (lit "contact me at a@b.com or http://x.com or 555-1234")) = false := by
  have h : redactText (lit "contact me at a@b.com or http://x.com or 555-1234") =
      lit "contact me at [redacted-email] or [redacted-url] or [redacted-phone]" := by
    decide
  refine ⟨h, ?_, ?_, ?_, ?_, ?_, ?_⟩ <;> rw [h] <;> decide

/-! ### Excerpt lemmas (claim C2) -/

/-- length_truncateSnippet: a truncated snippet has at most 360
characters plus one ellipsis character. -/
theorem length_truncateSnippet (s : Str) : (truncateSnippet s).length ≤ 361 := by
  unfold truncateSnippet
  split
  · simp [List.length_take]
  · omega

/-- truncateSnippet_ne_nil: truncation preserves non-emptiness. -/
theorem truncateSnippet_ne_nil (s : Str) (h : s ≠ []) : truncateSnippet s ≠ [] := by
  unfold truncateSnippet
  split
  · simp
  · exact h

/-- subFuel_ne_nil: a substitution pass with a non-empty replacement
never empties a non-empty string. -/
theorem subFuel_ne_nil (m : Matcher) (repl : Str) (hrepl : repl ≠ []) :
    ∀ (fuel : Nat) (prev : Option Char) (s : Str), s ≠ [] →
      subFuel m repl fuel prev s ≠ [] := by
  intro fuel
  induction fuel with
  | zero => intro prev s hs; exact hs
  | succ f _ =>
    intro prev s hs
    match s with
    | [] => exact absurd rfl hs
    | c :: rest =>
      simp only [subFuel]
      split
      · simp [hrepl]
      · simp

/-- pyRegexSub_ne_nil: ditto for the wrapper. -/
theorem pyRegexSub_ne_nil (m : Matcher) (repl : Str) (hrepl : repl ≠ []) (s : Str)
    (h : s ≠ []) : pyRegexSub m repl s ≠ [] :=
  subFuel_ne_nil m repl hrepl s.length none s h

/-- redactText_ne_nil: redaction never empties a non-empty string (each
placeholder is non-empty). -/
theorem redactText_ne_nil (t : Str) (h : t ≠ []) : redactText t ≠ [] := by
  unfold redactText
  exact pyRegexSub_ne_nil _ _ (by decide) _
    (pyRegexSub_ne_nil _ _ (by decide) _
      (pyRegexSub_ne_nil _ _ (by decide) _ h))

/-- mkExcerptText_ne_nil: a message whose normalized snippet is non-empty
yields a non-empty excerpt text for either redact flag. -/
theorem mkExcerptText_ne_nil (redact : Bool) (t : Str) (h : normalizeSnippet t ≠ []) :
    mkExcerptText redact t ≠ [] := by
  unfold mkExcerptText
  have htr := truncateSnippet_ne_nil _ h
  cases redact
  · simpa using htr
  · simpa using redactText_ne_nil _ htr

/-- mkExcerptText_length_le: without redaction the excerpt text obeys the
truncation bound. -/
theorem mkExcerptText_length_le (t : Str) : (mkExcerptText false t).length ≤ 361 := by
  unfold mkExcerptText
  simpa using length_truncateSnippet (normalizeSnippet t)

/-- excerptLoop_length_of_all: with enough messages, all with non-empty
excerpt texts, the loop collects exactly `maxE` excerpts. -/
theorem excerptLoop_length_of_all (redact : Bool) (maxE : Nat) :
    ∀ (ms : List Message) (acc : List Excerpt),
      (∀ m ∈ ms, mkExcerptText redact m.text ≠ []) →
      acc.length < maxE → maxE ≤ acc.length + ms.length →
      (excerptLoop redact maxE ms acc).length = maxE := by
  intro ms
  induction ms with
  | nil =>
    intro acc _ hlt hle
    simp at hle
    omega
  | cons m ms ih =>
    intro acc hall hlt hle
    have hm := hall m (List.mem_cons_self m ms)
    simp only [excerptLoop, if_pos hm]
    split
    · next hstop =>
      simp only [List.length_append, List.length_singleton] at hstop ⊢
      omega
    · next hstop =>
      refine ih _ (fun m1 hm1 => hall m1 (List.mem_cons_of_mem m hm1)) ?_ ?_
      · simp only [List.length_append, List.length_singleton] at hstop ⊢
        omega
      · simp only [List.length_append, List.length_singleton]
        simp only [List.length_cons] at hle
        omega

/-- excerptLoop_text_mem: every collected excerpt is either inherited
from the accumulator or carries the excerpt text of one of the scanned
messages. -/
theorem excerptLoop_text_mem (redact : Bool) (maxE : Nat) :
    ∀ (ms : List Message) (acc : List Excerpt) (e : Excerpt),
      e ∈ excerptLoop redact maxE ms acc →
      e ∈ acc ∨ ∃ m ∈ ms, e.text = mkExcerptText redact m.text := by
  intro ms
  induction ms with
  | nil => intro acc e he; exact Or.inl he
  | cons m ms ih =>
    intro acc e he
    rw [excerptLoop] at he
    by_cases hc : mkExcerptText redact m.text = []
    · have hcn : ¬mkExcerptText redact m.text ≠ [] := by simp [hc]
      rw [if_neg hcn] at he
      split at he
      · exact Or.inl he
      · rcases ih acc e he with h | ⟨m1, hm1, ht⟩
        · exact Or.inl h
        · exact Or.inr ⟨m1, List.mem_cons_of_mem m hm1, ht⟩
    · rw [if_pos hc] at he
      split at he
      · rcases List.mem_append.mp he with h | h
        · exact Or.inl h
        · simp at h
          exact Or.inr ⟨m, List.mem_cons_self m ms, by rw [h]⟩
      · rcases ih _ e he with h | ⟨m1, hm1, ht⟩
        · rcases List.mem_append.mp h with h2 | h2
          · exact Or.inl h2
          · simp at h2
            exact Or.inr ⟨m, List.mem_cons_self m ms, by rw [h2]⟩
        · exact Or.inr ⟨m1, List.mem_cons_of_mem m hm1, ht⟩

/-- Claim C2 (amended): with at least 100 messages whose texts are
non-blank after whitespace normalization, `summarize` with
`max_excerpts=3` returns exactly 3 excerpts for either redact flag, and
when redaction is off each excerpt text has at most 361 characters. -/
theorem c2_excerpt_bound (ds : Dataset) (year : Option Int) (redact : Bool)
    (h100 : 100 ≤ ds.messages.length)
    (hne : ∀ m ∈ ds.messages, normalizeSnippet m.text ≠ []) :
    (summarize ds year redact 3).excerpts.length = 3 ∧
    (redact = false →
      ∀ e ∈ (summarize ds year redact 3).excerpts, e.text.length ≤ 361) := by
  have hex : (summarize ds year redact 3).excerpts =
      excerptLoop redact 3 (ds.messages.take (3 * 2)) [] := rfl
  constructor
  · rw [hex]
    refine excerptLoop_length_of_all redact 3 _ []
      (fun m hm => mkExcerptText_ne_nil redact m.text
        (hne m (List.mem_of_mem_take hm))) (by simp) ?_
    have h6 : (List.take (3 * 2) ds.messages).length = 6 := by
      rw [List.length_take]
      omega
    rw [h6]
    simp
  · intro hredact
    subst hredact
    rw [hex]
    intro e he
    rcases excerptLoop_text_mem false 3 _ [] e he with h | ⟨m, _, ht⟩
    · simp at h
    · rw [ht]
      exact mkExcerptText_length_le m.text

/-- c2Msg builds a canonical message with the given text. -/
def c2Msg (t : Str) : Message :=
  { conversation_id := lit "c"
    conversation_title := lit "T"
    message_id := lit "m"
    role := lit "user"
    created_at := ⟨0⟩
    text := t
    model := none }

/-- c2EmailText is a 153-character text of 22 comma-separated email
addresses: redaction rewrites it to 373 characters. -/
def c2EmailText : Str := List.intercalate (lit ",") (List.replicate 22 (lit "a@b.co"))

/-- c2DatasetA has 100 non-empty-text messages, the first full of email
addresses. -/
def c2DatasetA : Dataset :=
  { conversations := [], messages := c2Msg c2EmailText :: List.replicate 99 (c2Msg (lit "x")),
    source := lit "chatgpt" }

/-- c2DatasetB has 100 messages whose texts are non-empty but blank. -/
def c2DatasetB : Dataset :=
  { conversations := [], messages := List.replicate 100 (c2Msg (lit " ")),
    source := lit "chatgpt" }

set_option maxRecDepth 8000 in
set_option maxHeartbeats 12000000 in
/-- Counterexample for C2 as stated: dataset A satisfies the claim's
hypotheses (100 messages, all with non-empty text) yet with `redact=True`
its first excerpt has 373 > 361 characters, because redaction runs after
truncation; dataset B also satisfies them (blank but non-empty texts) yet
yields 0 excerpts instead of 3. -/
theorem c2_counterexample :
    (100 ≤ c2DatasetA.messages.length ∧ (∀ m ∈ c2DatasetA.messages, m.text ≠ []) ∧
      ∃ e ∈ (summarize c2DatasetA none true 3).excerpts, 361 < e.text.length) ∧
    (100 ≤ c2DatasetB.messages.length ∧ (∀ m ∈ c2DatasetB.messages, m.text ≠ []) ∧
      (summarize c2DatasetB none false 3).excerpts.length = 0) := by
  decide

/-- c2WitnessDataset has 100 messages with ordinary text. -/
def c2WitnessDataset : Dataset :=
  { conversations := [], messages := List.replicate 100 (c2Msg (lit "hello")),
    source := lit "chatgpt" }

set_option maxRecDepth 8000 in
set_option maxHeartbeats 4000000 in
/-- Witness for the amended C2 at a concrete dataset. -/
theorem c2_excerpt_bound_witness :
    (summarize c2WitnessDataset none false 3).excerpts.length = 3 ∧
    (∀ e ∈ (summarize c2WitnessDataset none false 3).excerpts, e.text.length ≤ 361) := by
  have h := c2_excerpt_bound c2WitnessDataset none false (by decide) (by decide)
  exact ⟨h.1, h.2 rfl⟩

/-! ### Tokenizer lemmas (claim C3) -/

/-- charOfNat_toNat: `Char.ofNat` round-trips on small code points. -/
theorem charOfNat_toNat (n : Nat) (h : n < 55296) : (Char.ofNat n).toNat = n := by
  unfold Char.ofNat
  rw [dif_pos (Or.inl h)]
  rfl

/-- toLowerChar_not_upper: a lowered character is never upper-case. -/
theorem toLowerChar_not_upper (c : Char) : isUpperAlpha (toLowerChar c) = false := by
  unfold toLowerChar
  split
  · next h =>
    unfold isUpperAlpha at h ⊢
    simp only [Bool.and_eq_true, decide_eq_true_eq] at h
    rw [charOfNat_toNat _ (by omega)]
    simp only [Bool.and_eq_false_iff, decide_eq_false_iff_not]
    omega
  · next h =>
    unfold isUpperAlpha at h ⊢
    simpa using h

/-- toLowerChar_idem: lowering is idempotent. -/
theorem toLowerChar_idem (c : Char) : toLowerChar (toLowerChar c) = toLowerChar c := by
  have h := toLowerChar_not_upper c
  set d := toLowerChar c with hd
  unfold toLowerChar
  rw [h]
  simp

/-- isWordRunChar_toLowerChar: the token character class is closed under
lowering. -/
theorem isAlnumChar_toLowerChar (c : Char) (h : isAlnumChar c = true) :
    isAlnumChar (toLowerChar c) = true := by
  unfold toLowerChar
  split
  · next hu =>
    unfold isUpperAlpha at hu
    simp only [Bool.and_eq_true, decide_eq_true_eq] at hu
    unfold isAlnumChar isAlphaChar isLowerAlpha isUpperAlpha isDigitChar
    rw [charOfNat_toNat (c.toNat + 32) (by omega)]
    simp only [Bool.or_eq_true, Bool.and_eq_true, decide_eq_true_eq]
    omega
  · exact h

/-- isWordRunChar_toLowerChar: the token character class is closed under
lowering. -/
theorem isWordRunChar_toLowerChar (c : Char) (h : isWordRunChar c = true) :
    isWordRunChar (toLowerChar c) = true := by
  by_cases hu : isUpperAlpha c = true
  · have halnum : isAlnumChar c = true := by
      unfold isAlnumChar isAlphaChar
      rw [hu]
      rfl
    have h2 := isAlnumChar_toLowerChar c halnum
    unfold isWordRunChar
    rw [h2]
    rfl
  · unfold toLowerChar
    rw [if_neg (by simpa using hu)]
    exact h

/-- wordRunsFuel_shape: every matched run starts with an alphanumeric
character and continues with at least one more character of the
continuation class. -/
theorem wordRunsFuel_shape : ∀ (fuel : Nat) (s r : Str), r ∈ wordRunsFuel fuel s →
    ∃ c0 cs, r = c0 :: cs ∧ isAlnumChar c0 = true ∧ cs ≠ [] ∧
      ∀ c ∈ cs, isWordRunChar c = true := by
  intro fuel
  induction fuel with
  | zero => intro s r h; simp [wordRunsFuel] at h
  | succ f ih =>
    intro s r h
    match s with
    | [] => simp [wordRunsFuel] at h
    | c :: rest =>
      simp only [wordRunsFuel] at h
      split at h
      · next ha =>
        split at h
        · exact ih _ _ h
        · next hrun =>
          rcases List.mem_cons.mp h with h1 | h1
          · refine ⟨c, rest.takeWhile isWordRunChar, h1, ha, ?_, ?_⟩
            · intro hnil
              rw [hnil] at hrun
              exact hrun rfl
            · intro c1 hc1
              exact List.mem_takeWhile_imp hc1
          · exact ih _ _ h1
      · exact ih _ _ h

/-- classChunksFuel groups the maximal runs of token-class characters of
a string, in order (fuel-based scan; each step consumes at least one
character, so a fuel of the input length suffices). -/
def classChunksFuel : Nat → Str → List Str
  | 0, _ => []
  | _ + 1, [] => []
  | fuel + 1, c :: rest =>
    if isWordRunChar c then
      (c :: rest.takeWhile isWordRunChar) :: classChunksFuel fuel (rest.dropWhile isWordRunChar)
    else classChunksFuel fuel rest

/-- classChunks lists the maximal runs of characters of the class
`[A-Za-z0-9'_-]` occurring in a string, in order. -/
def classChunks (s : Str) : List Str := classChunksFuel s.length s

/-- maximalTokenRuns follows the claim's words: the maximal runs of the
class, each begun at its first alphanumeric character (a run must start
with an alphanumeric, so leading apostrophes, underscores and hyphens
fall away), kept when at least 2 characters long. -/
def maximalTokenRuns (s : Str) : List Str :=
  ((classChunks s).map (fun r => r.dropWhile (fun c => !isAlnumChar c))).filter
    (fun r => 2 ≤ r.length)

/-- tokenizeSpec follows the claim's words end to end: the maximal runs,
lower-cased, with purely numeric tokens and stop words discarded. -/
def tokenizeSpec (s : Str) : List Str :=
  ((maximalTokenRuns s).map pyLower).filter
    (fun w => !STOPWORDS.contains w && !pyIsDigitStr w)

/-- isWordRunChar_of_isAlnumChar: alphanumerics belong to the run
class. -/
theorem isWordRunChar_of_isAlnumChar (c : Char) (h : isAlnumChar c = true) :
    isWordRunChar c = true := by
  unfold isWordRunChar
  rw [h]
  rfl

/-- dropWhile_eq_self_of_takeWhile_nil: when nothing is taken, nothing is
dropped. -/
theorem dropWhile_eq_self_of_takeWhile_nil (p : Char → Bool) (l : Str)
    (h : l.takeWhile p = []) : l.dropWhile p = l := by
  cases l with
  | nil => rfl
  | cons a as =>
    by_cases hp : p a = true
    · rw [List.takeWhile_cons, if_pos hp] at h
      cases h
    · rw [List.dropWhile_cons, if_neg hp]

/-- classChunksFuel_irrel: any sufficient fuel computes the same
chunks. -/
theorem classChunksFuel_irrel : ∀ (f1 f2 : Nat) (s : Str), s.length ≤ f1 →
    s.length ≤ f2 → classChunksFuel f1 s = classChunksFuel f2 s := by
  intro f1
  induction f1 with
  | zero =>
    intro f2 s h1 _
    have hs : s = [] := by
      cases s with
      | nil => rfl
      | cons a as => simp at h1
    subst hs
    cases f2 <;> rfl
  | succ f ih =>
    intro f2 s h1 h2
    cases s with
    | nil => cases f2 <;> rfl
    | cons c rest =>
      cases f2 with
      | zero => simp at h2
      | succ f2p =>
        simp only [List.length_cons] at h1 h2
        have hdw : (rest.dropWhile isWordRunChar).length ≤ rest.length :=
          (List.dropWhile_sublist isWordRunChar).length_le
        simp only [classChunksFuel]
        by_cases hc : isWordRunChar c = true
        · rw [if_pos hc, if_pos hc, ih f2p _ (by omega) (by omega)]
        · rw [if_neg hc, if_neg hc, ih f2p _ (by omega) (by omega)]

/-- classChunksFuel_eq: sufficient fuel computes `classChunks`. -/
theorem classChunksFuel_eq (fuel : Nat) (s : Str) (h : s.length ≤ fuel) :
    classChunksFuel fuel s = classChunks s :=
  classChunksFuel_irrel fuel s.length s h le_rfl

/-- classChunks_cons_class: a class character extends or begins the first
chunk. -/
theorem classChunks_cons_class (c : Char) (s : Str) (hc : isWordRunChar c = true) :
    classChunks (c :: s) =
      (c :: s.takeWhile isWordRunChar) :: classChunks (s.dropWhile isWordRunChar) := by
  have h0 : classChunks (c :: s) = classChunksFuel (s.length + 1) (c :: s) := by
    simp [classChunks]
  rw [h0]
  simp only [classChunksFuel, if_pos hc]
  rw [classChunksFuel_eq _ _ (List.dropWhile_sublist isWordRunChar).length_le]

/-- classChunks_cons_nonclass: a non-class character is skipped. -/
theorem classChunks_cons_nonclass (c : Char) (s : Str) (hc : ¬isWordRunChar c = true) :
    classChunks (c :: s) = classChunks s := by
  have h0 : classChunks (c :: s) = classChunksFuel (s.length + 1) (c :: s) := by
    simp [classChunks]
  rw [h0]
  simp only [classChunksFuel, if_neg hc]
  exact classChunksFuel_eq _ _ le_rfl

/-- maximalTokenRuns_cons_nonclass: a non-class character contributes no
run. -/
theorem maximalTokenRuns_cons_nonclass (c : Char) (s : Str)
    (hc : ¬isWordRunChar c = true) :
    maximalTokenRuns (c :: s) = maximalTokenRuns s := by
  unfold maximalTokenRuns
  rw [classChunks_cons_nonclass c s hc]

/-- maximalTokenRuns_cons_classNonAlnum: a leading apostrophe, underscore
or hyphen is dropped from the front of its chunk and contributes no run
of its own. -/
theorem maximalTokenRuns_cons_classNonAlnum (c : Char) (s : Str)
    (hc : isWordRunChar c = true) (ha : ¬isAlnumChar c = true) :
    maximalTokenRuns (c :: s) = maximalTokenRuns s := by
  have ha2 : isAlnumChar c = false := by
    revert ha
    cases isAlnumChar c <;> simp
  unfold maximalTokenRuns
  rw [classChunks_cons_class c s hc]
  cases s with
  | nil =>
    simp [classChunks, classChunksFuel, List.dropWhile_cons, ha2]
  | cons d s2 =>
    by_cases hd : isWordRunChar d = true
    · rw [classChunks_cons_class d s2 hd]
      simp only [List.takeWhile_cons, if_pos hd, List.dropWhile_cons, if_pos hd]
      simp [List.dropWhile_cons, ha2]
    · have htw : (d :: s2).takeWhile isWordRunChar = [] := by
        rw [List.takeWhile_cons, if_neg hd]
      have hdw : (d :: s2).dropWhile isWordRunChar = d :: s2 :=
        dropWhile_eq_self_of_takeWhile_nil _ _ htw
      rw [htw, hdw]
      simp [List.dropWhile_cons, ha2]

/-- maximalTokenRuns_cons_single: an alphanumeric with no class
continuation forms a length-1 run, which is discarded. -/
theorem maximalTokenRuns_cons_single (c : Char) (s : Str)
    (ha : isAlnumChar c = true) (hrun : s.takeWhile isWordRunChar = []) :
    maximalTokenRuns (c :: s) = maximalTokenRuns s := by
  unfold maximalTokenRuns
  rw [classChunks_cons_class c s (isWordRunChar_of_isAlnumChar c ha), hrun,
    dropWhile_eq_self_of_takeWhile_nil _ _ hrun]
  simp [List.dropWhile_cons, ha]

/-- maximalTokenRuns_cons_run: an alphanumeric with a non-empty class
continuation begins a kept run that spans its whole chunk. -/
theorem maximalTokenRuns_cons_run (c : Char) (s : Str)
    (ha : isAlnumChar c = true) (hrun : s.takeWhile isWordRunChar ≠ []) :
    maximalTokenRuns (c :: s) =
      (c :: s.takeWhile isWordRunChar) :: maximalTokenRuns (s.dropWhile isWordRunChar) := by
  unfold maximalTokenRuns
  rw [classChunks_cons_class c s (isWordRunChar_of_isAlnumChar c ha)]
  have hlen : 2 ≤ (c :: s.takeWhile isWordRunChar).length := by
    simp only [List.length_cons]
    have := List.length_pos.mpr hrun
    omega
  simp only [List.map_cons]
  rw [List.dropWhile_cons]
  rw [if_neg (by simp [ha])]
  rw [List.filter_cons]
  rw [if_pos (by simpa using hlen)]

/-- wordRuns_eq_maximalTokenRuns: the scanner of `_WORD_RE.finditer`
produces exactly the complete, in-order list of maximal runs (each begun
at its first alphanumeric, of length at least 2). -/
theorem wordRuns_eq_maximalTokenRuns : ∀ (fuel : Nat) (s : Str), s.length ≤ fuel →
    wordRunsFuel fuel s = maximalTokenRuns s := by
  intro fuel
  induction fuel with
  | zero =>
    intro s h
    cases s with
    | nil => rfl
    | cons c rest => simp at h
  | succ f ih =>
    intro s h
    cases s with
    | nil => rfl
    | cons c rest =>
      simp only [List.length_cons] at h
      have hdw : (rest.dropWhile isWordRunChar).length ≤ rest.length :=
        (List.dropWhile_sublist isWordRunChar).length_le
      simp only [wordRunsFuel]
      by_cases hc : isAlnumChar c = true
      · rw [if_pos hc]
        by_cases hrun : (rest.takeWhile isWordRunChar).isEmpty = true
        · rw [if_pos hrun, ih rest (by omega)]
          exact (maximalTokenRuns_cons_single c rest hc
            (List.isEmpty_iff.mp hrun)).symm
        · rw [if_neg hrun, ih _ (by omega)]
          exact (maximalTokenRuns_cons_run c rest hc
            (fun h0 => hrun (by rw [h0]; rfl))).symm
      · rw [if_neg hc, ih rest (by omega)]
        by_cases hw : isWordRunChar c = true
        · exact (maximalTokenRuns_cons_classNonAlnum c rest hw hc).symm
        · exact (maximalTokenRuns_cons_nonclass c rest hw).symm

/-- tokenize_eq_tokenizeSpec: the code's tokenizer equals the spec-side
tokenizer built from maximal runs. -/
theorem tokenize_eq_tokenizeSpec (s : Str) : tokenize s = tokenizeSpec s := by
  unfold tokenize tokenizeSpec wordRuns
  rw [wordRuns_eq_maximalTokenRuns s.length s le_rfl]

/-- Claim C3: the tokenizer maps a text to exactly the complete in-order
list of its maximal runs that start with an alphanumeric character and
continue in the class `[A-Za-z0-9'_-]`, keeps only runs of length at
least 2, lower-cases them and discards purely numeric tokens and stop
words (`tokenizeSpec` spells out that description); it yields the spec's
results on the two example strings; and every emitted token indeed has
length at least 2, is lower-cased, starts alphanumeric, continues in the
class, and is neither purely numeric nor a stop word. -/
theorem c3_tokenize (s t : Str) :
    tokenize (lit "hello world") = [lit "hello", lit "world"] ∧
    tokenize (lit "the quick fox") = [lit "quick", lit "fox"] ∧
    tokenize s = tokenizeSpec s ∧
    (t ∈ tokenize s →
      2 ≤ t.length ∧ pyLower t = t ∧
      (∃ c0 cs, t = c0 :: cs ∧ isAlnumChar c0 = true ∧
        ∀ c ∈ cs, isWordRunChar c = true) ∧
      pyIsDigitStr t = false ∧ t ∉ STOPWORDS) := by
  refine ⟨by decide, by decide, tokenize_eq_tokenizeSpec s, fun ht => ?_⟩
  unfold tokenize at ht
  obtain ⟨hmem, hfl⟩ := List.mem_filter.mp ht
  obtain ⟨r, hr, hlow⟩ := List.mem_map.mp hmem
  obtain ⟨c0, cs, hshape, halnum, hne, hclass⟩ := wordRunsFuel_shape _ _ r hr
  subst hlow
  subst hshape
  simp only [Bool.and_eq_true, Bool.not_eq_true'] at hfl
  refine ⟨?_, ?_, ?_, hfl.2, ?_⟩
  · simp only [pyLower, List.length_map, List.length_cons]
    have := List.length_pos.mpr hne
    omega
  · show pyLower (pyLower (c0 :: cs)) = pyLower (c0 :: cs)
    unfold pyLower
    rw [List.map_map]
    exact List.map_congr_left (fun c _ => toLowerChar_idem c)
  · refine ⟨toLowerChar c0, cs.map toLowerChar, by simp [pyLower], isAlnumChar_toLowerChar c0 halnum, ?_⟩
    intro c1 hc1
    obtain ⟨c2, hc2, he⟩ := List.mem_map.mp hc1
    rw [← he]
    exact isWordRunChar_toLowerChar c2 (hclass c2 hc2)
  · intro hmem2
    have : STOPWORDS.contains (pyLower (c0 :: cs)) = true :=
      List.elem_eq_true_of_mem hmem2
    rw [hfl.1] at this
    cases this

/-- Witness for C3: the general token properties at the concrete token
from the spec's example. -/
theorem c3_tokenize_witness :
    2 ≤ (lit "quick").length ∧ pyLower (lit "quick") = lit "quick" ∧
    (∃ c0 cs, lit "quick" = c0 :: cs ∧ isAlnumChar c0 = true ∧
      ∀ c ∈ cs, isWordRunChar c = true) ∧
    pyIsDigitStr (lit "quick") = false ∧ lit "quick" ∉ STOPWORDS :=
  (c3_tokenize (lit "the quick fox") (lit "quick")).2.2.2 (by decide)

/-! ### Streak lemmas (claim C4) -/

/-- frontRun is the length of the consecutive run continuing `prev` at
the front of the list. -/
def frontRun : Int → List Int → Nat
  | _, [] => 0
  | prev, x :: xs => if x - prev = 1 then 1 + frontRun x xs else 0

/-- bestRun is the longest consecutive run found anywhere in the list
(specification-side recursion over the sorted distinct day list). -/
def bestRun : List Int → Nat
  | [] => 0
  | x :: xs => max (1 + frontRun x xs) (bestRun xs)

/-- streakLoop_max: the running best folds through as an outer max. -/
theorem streakLoop_max : ∀ (xs : List Int) (prev : Int) (b1 b2 cur : Nat),
    streakLoop prev (max b1 b2) cur xs = max b1 (streakLoop prev b2 cur xs) := by
  intro xs
  induction xs with
  | nil => intro prev b1 b2 cur; rfl
  | cons x xs ih =>
    intro prev b1 b2 cur
    by_cases hc : x - prev = 1
    · simp only [streakLoop, if_pos hc]
      rw [Nat.max_assoc, ih]
    · simp only [streakLoop, if_neg hc]
      exact ih x b1 b2 1

/-- streakLoop_eq: in reachable states (`1 ≤ cur ≤ best`) the loop
computes the max of the running best, the run continuing `prev`, and the
best run in the remainder. -/
theorem streakLoop_eq : ∀ (xs : List Int) (prev : Int) (best cur : Nat),
    1 ≤ cur → cur ≤ best →
    streakLoop prev best cur xs = max best (max (cur + frontRun prev xs) (bestRun xs)) := by
  intro xs
  induction xs with
  | nil =>
    intro prev best cur h1 h2
    simp only [streakLoop, frontRun, bestRun]
    omega
  | cons x xs ih =>
    intro prev best cur h1 h2
    by_cases hc : x - prev = 1
    · simp only [streakLoop, if_pos hc, frontRun, bestRun]
      rw [ih x (max best (cur + 1)) (cur + 1) (by omega) (by omega)]
      omega
    · simp only [streakLoop, if_neg hc, frontRun, bestRun]
      rw [ih x best 1 (by omega) (by omega)]
      omega

/-- computeLongestStreak_eq_bestRun: the code's fold equals the
structural longest-run function on the sorted distinct day list. -/
theorem computeLongestStreak_eq_bestRun (days : List Int) :
    computeLongestStreak days = bestRun (sortedDedupDays days) := by
  unfold computeLongestStreak
  cases hl : sortedDedupDays days with
  | nil => rfl
  | cons d ds =>
    simp only
    rw [streakLoop_eq ds d 1 1 (by omega) (by omega), bestRun]
    omega

/-- frontRun_spec: the front run really is a run of consecutive members
of the list. -/
theorem frontRun_spec : ∀ (xs : List Int) (x : Int) (k : Nat),
    k < 1 + frontRun x xs → x + (k : Int) ∈ x :: xs := by
  intro xs
  induction xs with
  | nil =>
    intro x k hk
    simp only [frontRun] at hk
    interval_cases k
    simp
  | cons y ys ih =>
    intro x k hk
    by_cases hc : y - x = 1
    · rcases Nat.eq_zero_or_pos k with hk0 | hk1
      · subst hk0; simp
      · simp only [frontRun, if_pos hc] at hk
        have h2 : x + (k : Int) = y + ((k - 1 : Nat) : Int) := by
          push_cast [hk1]
          omega
        rw [h2]
        exact List.mem_cons_of_mem x (ih y (k - 1) (by omega))
    · simp only [frontRun, if_neg hc] at hk
      interval_cases k
      simp

/-- bestRun_spec: a non-empty sorted list contains a consecutive run of
the computed best length. -/
theorem bestRun_spec : ∀ (l : List Int), l ≠ [] →
    ∃ d ∈ l, ∀ k : Nat, k < bestRun l → d + (k : Int) ∈ l := by
  intro l
  induction l with
  | nil => intro h; exact absurd rfl h
  | cons x xs ih =>
    intro _
    by_cases hb : bestRun xs ≤ 1 + frontRun x xs
    · refine ⟨x, List.mem_cons_self x xs, fun k hk => ?_⟩
      apply frontRun_spec
      simp only [bestRun] at hk
      omega
    · have hxs : xs ≠ [] := by
        intro h0
        rw [h0] at hb
        simp [bestRun] at hb
      obtain ⟨d, hd, hrun⟩ := ih hxs
      refine ⟨d, List.mem_cons_of_mem x hd, fun k hk => ?_⟩
      apply List.mem_cons_of_mem
      apply hrun
      simp only [bestRun] at hk
      omega

/-- frontRun_le_length: the front run is bounded by the list length. -/
theorem frontRun_le_length : ∀ (xs : List Int) (x : Int), frontRun x xs ≤ xs.length := by
  intro xs
  induction xs with
  | nil => intro x; simp [frontRun]
  | cons y ys ih =>
    intro x
    by_cases hc : y - x = 1
    · simp only [frontRun, if_pos hc, List.length_cons]
      have := ih y
      omega
    · simp only [frontRun, if_neg hc, List.length_cons]
      omega

/-- bestRun_le_length: the longest run is bounded by the list length. -/
theorem bestRun_le_length : ∀ (l : List Int), bestRun l ≤ l.length := by
  intro l
  induction l with
  | nil => simp [bestRun]
  | cons x xs ih =>
    simp only [bestRun, List.length_cons]
    have := frontRun_le_length xs x
    omega

/-- frontRun_maximal: on a strictly sorted list, a consecutive run
starting at the head is no longer than the front run. -/
theorem frontRun_maximal : ∀ (xs : List Int) (x : Int) (n : Nat),
    List.Pairwise (fun a b : Int => a < b) (x :: xs) →
    (∀ k : Nat, k < n → x + (k : Int) ∈ x :: xs) →
    n ≤ 1 + frontRun x xs := by
  intro xs
  induction xs with
  | nil =>
    intro x n _ hrun
    by_contra hlt
    have h1 := hrun 1 (by simp only [frontRun] at hlt; omega)
    simp at h1
  | cons y ys ih =>
    intro x n hsorted hrun
    by_cases hn : n ≤ 1
    · simp only [frontRun]
      omega
    · have h1 := hrun 1 (by omega)
      have hxy : x < y := (List.pairwise_cons.mp hsorted).1 y (List.mem_cons_self y ys)
      have hxys : ∀ z ∈ ys, x < z := fun z hz =>
        (List.pairwise_cons.mp hsorted).1 z (List.mem_cons_of_mem y hz)
      have hyys : ∀ z ∈ ys, y < z := fun z hz =>
        (List.pairwise_cons.mp (List.pairwise_cons.mp hsorted).2).1 z hz
      have hy : y = x + 1 := by
        rcases List.mem_cons.mp h1 with h2 | h2
        · push_cast at h2
          omega
        · rcases List.mem_cons.mp h2 with h3 | h3
          · push_cast at h3
            omega
          · have := hyys _ h3
            push_cast at this ⊢
            omega
      have hyrun : ∀ k : Nat, k < n - 1 → y + (k : Int) ∈ y :: ys := by
        intro k hk
        have h2 := hrun (k + 1) (by omega)
        have h3 : x + ((k + 1 : Nat) : Int) = y + (k : Int) := by
          push_cast
          omega
        rw [h3] at h2
        rcases List.mem_cons.mp h2 with h4 | h4
        · exfalso
          omega
        · exact h4
      have hih := ih y (n - 1) (List.pairwise_cons.mp hsorted).2 hyrun
      simp only [frontRun, if_pos (by omega : y - x = 1)]
      omega

/-- bestRun_maximal: on a strictly sorted list, any consecutive run of
members is no longer than the computed best. -/
theorem bestRun_maximal : ∀ (l : List Int), List.Pairwise (fun a b : Int => a < b) l →
    ∀ (d : Int) (n : Nat), 0 < n → (∀ k : Nat, k < n → d + (k : Int) ∈ l) →
    n ≤ bestRun l := by
  intro l
  induction l with
  | nil =>
    intro _ d n hn hrun
    have := hrun 0 hn
    simp at this
  | cons x xs ih =>
    intro hsorted d n hn hrun
    have hxlt : ∀ z ∈ xs, x < z := fun z hz =>
      (List.pairwise_cons.mp hsorted).1 z hz
    by_cases hd : d = x
    · subst hd
      have := frontRun_maximal xs d n hsorted hrun
      simp only [bestRun]
      omega
    · have hdin : d ∈ x :: xs := by
        have := hrun 0 hn
        simpa using this
      have hdxs : d ∈ xs := by
        rcases List.mem_cons.mp hdin with h | h
        · exact absurd h hd
        · exact h
      have hdgt : x < d := hxlt d hdxs
      have hrun2 : ∀ k : Nat, k < n → d + (k : Int) ∈ xs := by
        intro k hk
        rcases List.mem_cons.mp (hrun k hk) with h | h
        · exfalso
          have : (0 : Int) ≤ (k : Int) := Int.natCast_nonneg k
          omega
        · exact h
      have := ih (List.pairwise_cons.mp hsorted).2 d n hn hrun2
      simp only [bestRun]
      omega

/-- sortedDedupDays_sorted: the sorted distinct day list is strictly
increasing. -/
theorem sortedDedupDays_sorted (days : List Int) :
    List.Pairwise (fun a b : Int => a < b) (sortedDedupDays days) := by
  unfold sortedDedupDays
  have hs : List.Sorted (fun a b : Int => a ≤ b)
      (List.insertionSort (fun a b : Int => a ≤ b) days) :=
    List.sorted_insertionSort _ days
  have hd : List.Sorted (fun a b : Int => a ≤ b)
      ((List.insertionSort (fun a b : Int => a ≤ b) days).dedup) :=
    List.Pairwise.sublist (List.dedup_sublist _) hs
  exact List.Sorted.lt_of_le hd (List.nodup_dedup _)

/-- mem_sortedDedupDays: membership is preserved. -/
theorem mem_sortedDedupDays (days : List Int) (a : Int) :
    a ∈ sortedDedupDays days ↔ a ∈ days := by
  unfold sortedDedupDays
  rw [List.mem_dedup]
  exact (List.perm_insertionSort _ days).mem_iff

/-- sortedDedupDays_length_le: deduplication and sorting do not lengthen
the list. -/
theorem sortedDedupDays_length_le (days : List Int) :
    (sortedDedupDays days).length ≤ days.length := by
  unfold sortedDedupDays
  calc ((List.insertionSort (fun a b : Int => a ≤ b) days).dedup).length
      ≤ (List.insertionSort (fun a b : Int => a ≤ b) days).length :=
        (List.dedup_sublist _).length_le
    _ = days.length := (List.perm_insertionSort _ days).length_eq

/-- Claim C4: the longest-streak computation returns the length of the
longest run of calendar-consecutive dates in the given set (the greatest
`n` such that some date `d` has `d, d+1, ..., d+n-1` all present); in
the scanning loop, a gap of any size resets the current run to length 1
while a consecutive day extends it; the empty set yields 0; and the
concrete set 2024-01-01, 2024-01-02, 2024-01-03, 2024-01-10 yields
3. -/
theorem c4_longest_streak (days : List Int) :
    computeLongestStreak days =
      Nat.findGreatest
        (fun n => 0 < n ∧ ∃ d ∈ days, ∀ k : Nat, k < n → d + (k : Int) ∈ days)
        days.length ∧
    (∀ (prev nxt : Int) (best cur : Nat) (rest : List Int), nxt - prev ≠ 1 →
      streakLoop prev best cur (nxt :: rest) = streakLoop nxt best 1 rest) ∧
    (∀ (prev nxt : Int) (best cur : Nat) (rest : List Int), nxt - prev = 1 →
      streakLoop prev best cur (nxt :: rest) =
        streakLoop nxt (max best (cur + 1)) (cur + 1) rest) ∧
    computeLongestStreak [] = 0 ∧
    computeLongestStreak [daysFromCivil 2024 1 1, daysFromCivil 2024 1 2,
      daysFromCivil 2024 1 3, daysFromCivil 2024 1 10] = 3 := by
  refine ⟨?_,
    fun prev nxt best cur rest h => by simp only [streakLoop, if_neg h],
    fun prev nxt best cur rest h => by simp only [streakLoop, if_pos h],
    rfl, by decide⟩
  rw [computeLongestStreak_eq_bestRun]
  cases hl : sortedDedupDays days with
  | nil =>
    have hdays : days = [] := by
      cases hd : days with
      | nil => rfl
      | cons a as =>
        exfalso
        have : a ∈ sortedDedupDays days := (mem_sortedDedupDays days a).mpr (by rw [hd]; simp)
        rw [hl] at this
        simp at this
    subst hdays
    rfl
  | cons x xs =>
    rw [← hl]
    have hne : days ≠ [] := by
      intro h0
      subst h0
      simp [sortedDedupDays] at hl
    have hmemhd : x ∈ days := by
      rw [← mem_sortedDedupDays days x, hl]
      simp
    have hlne : sortedDedupDays days ≠ [] := by rw [hl]; simp
    apply Nat.le_antisymm
    · refine Nat.le_findGreatest ?_ ?_
      · exact le_trans (bestRun_le_length _) (sortedDedupDays_length_le days)
      · obtain ⟨d, hd, hrun⟩ := bestRun_spec _ hlne
        refine ⟨?_, d, (mem_sortedDedupDays days d).mp hd, fun k hk =>
          (mem_sortedDedupDays days _).mp (hrun k hk)⟩
        rw [hl]
        simp only [bestRun]
        omega
    · rcases Nat.eq_zero_or_pos (Nat.findGreatest
          (fun n => 0 < n ∧ ∃ d ∈ days, ∀ k : Nat, k < n → d + (k : Int) ∈ days)
          days.length) with h0 | hpos
      · omega
      · have hP1 : (fun n => 0 < n ∧ ∃ d ∈ days, ∀ k : Nat, k < n → d + (k : Int) ∈ days) 1 := by
          refine ⟨by omega, x, hmemhd, fun k hk => ?_⟩
          interval_cases k
          simpa using hmemhd
        have hlen1 : 1 ≤ days.length := by
          cases days with
          | nil => exact absurd rfl hne
          | cons a as => simp
        have hPfg := @Nat.findGreatest_spec 1
          (fun n => 0 < n ∧ ∃ d ∈ days, ∀ k : Nat, k < n → d + (k : Int) ∈ days)
          inferInstance days.length hlen1 hP1
        obtain ⟨hfgpos, d, hd, hrun⟩ := hPfg
        exact bestRun_maximal _ (sortedDedupDays_sorted days) d _ hfgpos
          (fun k hk => (mem_sortedDedupDays days _).mpr (hrun k hk))

/-- Witness for C4: the loop's gap-reset and extension steps at concrete
values, and the concrete example through the theorem. -/
theorem c4_longest_streak_witness :
    streakLoop 0 2 2 [5] = streakLoop 5 2 1 [] ∧
    streakLoop 5 2 1 [6] = streakLoop 6 (max 2 2) 2 [] ∧
    computeLongestStreak [daysFromCivil 2024 1 1, daysFromCivil 2024 1 2,
      daysFromCivil 2024 1 3, daysFromCivil 2024 1 10] = 3 := by
  refine ⟨?_, ?_, (c4_longest_streak []).2.2.2.2⟩
  · exact (c4_longest_streak []).2.1 0 5 2 2 [] (by decide)
  · exact (c4_longest_streak []).2.2.1 5 6 2 1 [] (by decide)

end Yywc
